import Mathlib

set_option maxRecDepth 100000
set_option maxHeartbeats 4000000

/-!
Verification development for the webhook receiver and chat-panel fact
recorder of this repository.

The embedding models JavaScript/TypeScript values and the repository's
functions over them:

* `JsonValue` is the type of parsed JSON values (JS numbers are modelled
  as integers; floating-point literals are outside the model).  Arrays
  and object field lists are the mutually defined `JsonList` and
  `JsonFields` so that all recursions are structural.
* JS `undefined` is modelled as `Option.none` at access sites; JS `null`
  is `JsonValue.null`.
* Strings handed to the HMAC layer are modelled as their UTF-8 byte
  sequences (`List Nat`, each element < 256), matching what
  `Buffer.from(s)` produces in the source.
* External library calls are modelled by their documented results:
  `crypto.timingSafeEqual` on equal-length buffers is byte equality
  (its timing behaviour is a real-time property outside this embedding),
  `crypto.createHmac(..).digest("hex")` is a concrete HMAC-SHA-256
  implementation given below, and `JSON.parse` is the concrete parser
  `JSON_parse` given below.
-/

mutual

/-- A parsed JSON value.  JS numbers are modelled as integers. -/
inductive JsonValue : Type where
  | null : JsonValue
  | bool : Bool → JsonValue
  | num : Int → JsonValue
  | str : String → JsonValue
  | arr : JsonList → JsonValue
  | obj : JsonFields → JsonValue
deriving DecidableEq

/-- A list of JSON values (the payload of an array). -/
inductive JsonList : Type where
  | nil : JsonList
  | cons : JsonValue → JsonList → JsonList
deriving DecidableEq

/-- The ordered field list of a JSON object. -/
inductive JsonFields : Type where
  | nil : JsonFields
  | cons : String → JsonValue → JsonFields → JsonFields
deriving DecidableEq

end

/-- Build a `JsonList` from a Lean list (used to write concrete events). -/
def JsonList.ofList : List JsonValue → JsonList
  | [] => .nil
  | v :: vs => .cons v (JsonList.ofList vs)

/-- Build `JsonFields` from a Lean list (used to write concrete events). -/
def JsonFields.ofList : List (String × JsonValue) → JsonFields
  | [] => .nil
  | (k, v) :: fs => .cons k v (JsonFields.ofList fs)

/-- Object construction helper for concrete events. -/
def jobj (fs : List (String × JsonValue)) : JsonValue := .obj (JsonFields.ofList fs)

/-- Array construction helper for concrete events. -/
def jarr (vs : List JsonValue) : JsonValue := .arr (JsonList.ofList vs)

namespace JsonValue

/-- Field lookup in an object's field list; with duplicate keys the last
occurrence wins, as for `JSON.parse` in JS. -/
def getFieldLast : JsonFields → String → Option JsonValue
  | .nil, _ => none
  | .cons k v rest, key =>
    match getFieldLast rest key with
    | some r => some r
    | none => if k = key then some v else none

/-- JS property access `v[k]`: yields the field of an object and
`undefined` (`none`) on every non-object value. -/
def jget : JsonValue → String → Option JsonValue
  | .obj fields, k => getFieldLast fields k
  | _, _ => none

/-- JS optional-chaining access `o?.[k]` on an intermediate result. -/
def jgetOpt (o : Option JsonValue) (k : String) : Option JsonValue :=
  o.bind (fun v => jget v k)

/-- JS truthiness of a value. -/
def truthy : JsonValue → Bool
  | .null => false
  | .bool b => b
  | .num n => n != 0
  | .str s => s != ""
  | .arr _ => true
  | .obj _ => true

/-- JS truthiness of a possibly-`undefined` value. -/
def truthyOpt : Option JsonValue → Bool
  | none => false
  | some v => truthy v

/-- JS `a ?? b` (nullish coalescing) on possibly-`undefined` values. -/
def nsq (a b : Option JsonValue) : Option JsonValue :=
  match a with
  | none => b
  | some .null => b
  | some v => some v

/-- JS `a || b` (first truthy wins) on possibly-`undefined` values. -/
def jsOr (a b : Option JsonValue) : Option JsonValue :=
  if truthyOpt a then a else b

/-- JS strict equality `v === s` between an arbitrary value and a string
primitive: true exactly when `v` is the same string. -/
def strictEqStr (v : JsonValue) (s : String) : Bool :=
  match v with
  | .str t => t == s
  | _ => false

end JsonValue
/-! ## Byte-level layer: UTF-8, SHA-256, HMAC, hex encoding

`Buffer.from(s)` in the source produces the UTF-8 bytes of `s`; the HMAC
layer works on byte sequences, modelled as `List Nat` with elements
below 256. -/

/-- UTF-8 encoding of one character. -/
def utf8Char (c : Char) : List Nat :=
  let n := c.toNat
  if n < 0x80 then [n]
  else if n < 0x800 then [0xc0 + n / 64, 0x80 + n % 64]
  else if n < 0x10000 then [0xe0 + n / 4096, 0x80 + (n / 64) % 64, 0x80 + n % 64]
  else [0xf0 + n / 262144, 0x80 + (n / 4096) % 64, 0x80 + (n / 64) % 64, 0x80 + n % 64]

/-- UTF-8 encoding of a string, as produced by `Buffer.from(s)`. -/
def utf8Bytes (s : String) : List Nat :=
  s.data.foldr (fun c acc => utf8Char c ++ acc) []

/-- 2^32, the modulus for 32-bit words. -/
def w32 : Nat := 4294967296

/-- 32-bit addition. -/
def add32 (x y : Nat) : Nat := (x + y) % w32

/-- 32-bit right rotation. -/
def rotr32 (n x : Nat) : Nat := ((x >>> n) ||| (x <<< (32 - n))) % w32

/-- SHA-256 round constants. -/
def sha256K : List Nat :=
  [1116352408, 1899447441, 3049323471, 3921009573, 961987163, 1508970993,
   2453635748, 2870763221, 3624381080, 310598401, 607225278, 1426881987,
   1925078388, 2162078206, 2614888103, 3248222580, 3835390401, 4022224774,
   264347078, 604807628, 770255983, 1249150122, 1555081692, 1996064986,
   2554220882, 2821834349, 2952996808, 3210313671, 3336571891, 3584528711,
   113926993, 338241895, 666307205, 773529912, 1294757372, 1396182291,
   1695183700, 1986661051, 2177026350, 2456956037, 2730485921, 2820302411,
   3259730800, 3345764771, 3516065817, 3600352804, 4094571909, 275423344,
   430227734, 506948616, 659060556, 883997877, 958139571, 1322822218,
   1537002063, 1747873779, 1955562222, 2024104815, 2227730452, 2361852424,
   2428436474, 2756734187, 3204031479, 3329325298]

/-- The eight 32-bit words of a SHA-256 hash state. -/
structure Hash8 : Type where
  h0 : Nat
  h1 : Nat
  h2 : Nat
  h3 : Nat
  h4 : Nat
  h5 : Nat
  h6 : Nat
  h7 : Nat

/-- SHA-256 initial hash value. -/
def sha256H0 : Hash8 :=
  ⟨1779033703, 3144134277, 1013904242, 2773480762, 1359893119, 2600822924, 528734635, 1541459225⟩

/-- Big-endian 32-bit words of a byte sequence (length a multiple of 4). -/
def wordsOf : List Nat → List Nat
  | b0 :: b1 :: b2 :: b3 :: rest => (((b0 * 256 + b1) * 256 + b2) * 256 + b3) :: wordsOf rest
  | _ => []

/-- σ0 of the SHA-256 message schedule. -/
def ssig0 (x : Nat) : Nat := rotr32 7 x ^^^ rotr32 18 x ^^^ (x >>> 3)

/-- σ1 of the SHA-256 message schedule. -/
def ssig1 (x : Nat) : Nat := rotr32 17 x ^^^ rotr32 19 x ^^^ (x >>> 10)

/-- Σ0 of the SHA-256 compression function. -/
def bsig0 (x : Nat) : Nat := rotr32 2 x ^^^ rotr32 13 x ^^^ rotr32 22 x

/-- Σ1 of the SHA-256 compression function. -/
def bsig1 (x : Nat) : Nat := rotr32 6 x ^^^ rotr32 11 x ^^^ rotr32 25 x

/-- Extend 16 message words to the 64-word SHA-256 schedule. -/
def sha256Schedule (ws : List Nat) : List Nat :=
  (List.range 48).foldl
    (fun acc _ =>
      let n := acc.length
      let w := add32 (add32 (acc.getD (n - 16) 0) (ssig0 (acc.getD (n - 15) 0)))
                     (add32 (acc.getD (n - 7) 0) (ssig1 (acc.getD (n - 2) 0)))
      acc ++ [w])
    ws

/-- The running state (a..h) of one SHA-256 compression. -/
structure Sha256Regs : Type where
  a : Nat
  b : Nat
  c : Nat
  d : Nat
  e : Nat
  f : Nat
  g : Nat
  h : Nat

/-- One SHA-256 round, fed a (schedule word, round constant) pair. -/
def sha256Round (st : Sha256Regs) (wk : Nat × Nat) : Sha256Regs :=
  let s1 := bsig1 st.e
  let ch := (st.e &&& st.f) ^^^ ((0xffffffff ^^^ st.e) &&& st.g)
  let temp1 := add32 st.h (add32 s1 (add32 ch (add32 wk.2 wk.1)))
  let s0 := bsig0 st.a
  let maj := (st.a &&& st.b) ^^^ (st.a &&& st.c) ^^^ (st.b &&& st.c)
  let temp2 := add32 s0 maj
  ⟨add32 temp1 temp2, st.a, st.b, st.c, add32 st.d temp1, st.e, st.f, st.g⟩

/-- Compress one 64-byte block into the hash state. -/
def sha256Block (H : Hash8) (block : List Nat) : Hash8 :=
  let ws := sha256Schedule (wordsOf block)
  let st0 : Sha256Regs := ⟨H.h0, H.h1, H.h2, H.h3, H.h4, H.h5, H.h6, H.h7⟩
  let st := (ws.zip sha256K).foldl sha256Round st0
  ⟨add32 H.h0 st.a, add32 H.h1 st.b, add32 H.h2 st.c, add32 H.h3 st.d,
   add32 H.h4 st.e, add32 H.h5 st.f, add32 H.h6 st.g, add32 H.h7 st.h⟩

/-- Process the padded message block by block (fuel bounds the number of
64-byte blocks; `fuel = length` is always enough). -/
def sha256Blocks : Nat → Hash8 → List Nat → Hash8
  | 0, H, _ => H
  | _ + 1, H, [] => H
  | fuel + 1, H, b :: bs => sha256Blocks fuel (sha256Block H ((b :: bs).take 64)) ((b :: bs).drop 64)

/-- SHA-256 padding: append 0x80, zeros, and the 64-bit big-endian bit length. -/
def sha256Pad (msg : List Nat) : List Nat :=
  let len := msg.length
  let bitLen := len * 8
  let padZeros := (119 - len % 64) % 64
  msg ++ [0x80] ++ List.replicate padZeros 0 ++
    [(bitLen >>> 56) &&& 255, (bitLen >>> 48) &&& 255, (bitLen >>> 40) &&& 255,
     (bitLen >>> 32) &&& 255, (bitLen >>> 24) &&& 255, (bitLen >>> 16) &&& 255,
     (bitLen >>> 8) &&& 255, bitLen &&& 255]

/-- Big-endian bytes of one 32-bit word. -/
def wordBE (w : Nat) : List Nat :=
  [(w >>> 24) &&& 255, (w >>> 16) &&& 255, (w >>> 8) &&& 255, w &&& 255]

/-- The 32 digest bytes of a hash state. -/
def digestBytes (H : Hash8) : List Nat :=
  wordBE H.h0 ++ wordBE H.h1 ++ wordBE H.h2 ++ wordBE H.h3 ++
  wordBE H.h4 ++ wordBE H.h5 ++ wordBE H.h6 ++ wordBE H.h7

/-- SHA-256 of a byte sequence. -/
def sha256 (msg : List Nat) : List Nat :=
  let padded := sha256Pad msg
  digestBytes (sha256Blocks padded.length sha256H0 padded)

/-- HMAC-SHA-256 (RFC 2104) with a 64-byte block size, as computed by
`crypto.createHmac("sha256", key).update(msg).digest()`. -/
def hmacSha256 (key msg : List Nat) : List Nat :=
  let k0 := if key.length > 64 then sha256 key else key
  let kp := k0 ++ List.replicate (64 - k0.length) 0
  let ipadKey := kp.map (fun b => b ^^^ 0x36)
  let opadKey := kp.map (fun b => b ^^^ 0x5c)
  sha256 (opadKey ++ sha256 (ipadKey ++ msg))

/-- ASCII byte of one lowercase hex digit. -/
def hexDigitByte (n : Nat) : Nat := if n < 10 then 48 + n else 87 + n

/-- Lowercase hex encoding of a byte sequence (`.digest("hex")`), as
ASCII bytes. -/
def hexBytes (bs : List Nat) : List Nat :=
  bs.foldr (fun b acc => hexDigitByte (b / 16) :: hexDigitByte (b % 16) :: acc) []

/-- Does `pat` lead the list `l`?  (`l` starts with `pat`.) -/
def leadMatch {α : Type} [BEq α] : List α → List α → Bool
  | [], _ => true
  | _ :: _, [] => false
  | p :: ps, c :: cs => p == c && leadMatch ps cs

/-- The UTF-8 / ASCII bytes of the literal "sha256=". -/
def sigTagBytes : List Nat := utf8Bytes "sha256="

/-- Model of `provided.replace(/^sha256=/, "")`: drop one leading
"sha256=" if present. -/
def stripSigTag (p : List Nat) : List Nat :=
  if leadMatch sigTagBytes p then p.drop 7 else p

/-- Model of `crypto.timingSafeEqual` on equal-length buffers: byte
equality.  (The source only calls it after checking the lengths are
equal; its constant-time execution is a real-time property outside this
embedding.) -/
def timingSafeEqual (a b : List Nat) : Bool := a == b

/-- `verifyHmacSha256` from `src/app/api/webhooks/openai/route.ts`
(lines 108-118), over the UTF-8 bytes of its string arguments: hex-encode
HMAC-SHA-256 of the body keyed by the secret, strip an optional leading
"sha256=" from the provided signature, and compare with a guarded
constant-time comparison.  Total by construction (the `try/catch` in the
source has no failing computation to guard for string inputs). -/
def verifyHmacSha256 (body secret provided : List Nat) : Bool :=
  let h := hexBytes (hmacSha256 secret body)
  let a := h
  let b := stripSigTag provided
  a.length == b.length && timingSafeEqual a b


/-! ## String layer: JS whitespace, case-insensitive search, `String()`,
`JSON.stringify`, `JSON.parse` -/

/-- The JS `\s` character class (whitespace as used by `trim` and the
`record_fact` text normalisation). -/
def isJsSpace (c : Char) : Bool :=
  c.toNat == 0x20 || (0x9 ≤ c.toNat && c.toNat ≤ 0xd) || c.toNat == 0xa0 ||
  c.toNat == 0x1680 || (0x2000 ≤ c.toNat && c.toNat ≤ 0x200a) ||
  c.toNat == 0x2028 || c.toNat == 0x2029 || c.toNat == 0x202f ||
  c.toNat == 0x205f || c.toNat == 0x3000 || c.toNat == 0xfeff

/-- Collapse every run of JS whitespace into one space; the flag records
whether the previous character was part of a whitespace run. -/
def collapseWsGo : Bool → List Char → List Char
  | _, [] => []
  | prev, c :: cs =>
    if isJsSpace c then
      if prev then collapseWsGo true cs else ' ' :: collapseWsGo true cs
    else c :: collapseWsGo false cs

/-- Model of `text.replace(/\s+/g, " ")`. -/
def jsReplaceWsRuns (s : String) : String := String.mk (collapseWsGo false s.data)

/-- Model of `String.prototype.trim`. -/
def jsTrim (s : String) : String :=
  String.mk (((s.data.dropWhile isJsSpace).reverse.dropWhile isJsSpace).reverse)

/-- ASCII lowercasing of one character. -/
def asciiLower (c : Char) : Char :=
  if 'A' ≤ c && c ≤ 'Z' then Char.ofNat (c.toNat + 32) else c

/-- ASCII lowercasing of a string. -/
def lowerStr (s : String) : String := String.mk (s.data.map asciiLower)

/-- Does `pat` occur as a contiguous run inside `l`? -/
def hasSubstr {α : Type} [BEq α] : List α → List α → Bool
  | pat, [] => leadMatch pat []
  | pat, c :: cs => leadMatch pat (c :: cs) || hasSubstr pat cs

/-- Model of `/completed/i.test(s)`: case-insensitive substring test for
"completed". -/
def testCompleted (s : String) : Bool :=
  hasSubstr "completed".data (lowerStr s).data

mutual

/-- JS `String(v)` conversion of a JSON value: `null`/booleans/numbers
print themselves, arrays join their elements with commas (`null`
printing as the empty string inside an array), objects print as
"[object Object]". -/
def jsToString : JsonValue → String
  | .null => "null"
  | .bool b => if b then "true" else "false"
  | .num n => toString n
  | .str s => s
  | .arr xs => String.intercalate "," (jsToStringList xs)
  | .obj _ => "[object Object]"

/-- The element strings of `String(array)`. -/
def jsToStringList : JsonList → List String
  | .nil => []
  | .cons .null rest => "" :: jsToStringList rest
  | .cons v rest => jsToString v :: jsToStringList rest

end

/-- One character of a JSON string literal, escaped as `JSON.stringify`
escapes it. -/
def jsonEscChar (c : Char) : String :=
  if c = '"' then "\\\""
  else if c = '\\' then "\\\\"
  else if c = '\x08' then "\\b"
  else if c = '\x0c' then "\\f"
  else if c = '\n' then "\\n"
  else if c = '\r' then "\\r"
  else if c = '\t' then "\\t"
  else if c.toNat < 0x20 then
    "\\u00" ++ String.singleton (Char.ofNat (hexDigitByte (c.toNat / 16))) ++
      String.singleton (Char.ofNat (hexDigitByte (c.toNat % 16)))
  else String.singleton c

/-- A JSON string literal as `JSON.stringify` prints it. -/
def jsonQuote (s : String) : String :=
  "\"" ++ String.join (s.data.map jsonEscChar) ++ "\""

mutual

/-- `JSON.stringify(v)` for a parsed JSON value. -/
def jsonStringify : JsonValue → String
  | .null => "null"
  | .bool b => if b then "true" else "false"
  | .num n => toString n
  | .str s => jsonQuote s
  | .arr xs => "[" ++ String.intercalate "," (jsonStringifyList xs) ++ "]"
  | .obj fs => "\x7b" ++ String.intercalate "," (jsonStringifyFields fs) ++ "\x7d"

/-- The element strings of `JSON.stringify(array)`. -/
def jsonStringifyList : JsonList → List String
  | .nil => []
  | .cons v rest => jsonStringify v :: jsonStringifyList rest

/-- The member strings of `JSON.stringify(object)`. -/
def jsonStringifyFields : JsonFields → List String
  | .nil => []
  | .cons k v rest => (jsonQuote k ++ ":" ++ jsonStringify v) :: jsonStringifyFields rest

end

/-! ### `JSON.parse`

A concrete recursive-descent model of `JSON.parse`.  JSON structural
whitespace is space, tab, newline and carriage return.  Numbers are
modelled as integers: fractional literals and negative exponents are
outside the model (the claims never involve non-integer numbers).
Duplicate object keys keep the first key position with the last value,
as JS object construction does. -/

/-- JSON structural whitespace. -/
def jsonWsChar (c : Char) : Bool := c == ' ' || c == '\t' || c == '\n' || c == '\r'

/-- Value of one hex digit, if it is one. -/
def hexVal (c : Char) : Option Nat :=
  if '0' ≤ c && c ≤ '9' then some (c.toNat - 48)
  else if 'a' ≤ c && c ≤ 'f' then some (c.toNat - 87)
  else if 'A' ≤ c && c ≤ 'F' then some (c.toNat - 55)
  else none

/-- Insert a key into an object-in-progress: last value wins, first key
position wins, as in JS object construction. -/
def upsertField (fs : List (String × JsonValue)) (k : String) (v : JsonValue) :
    List (String × JsonValue) :=
  if fs.any (fun p => p.1 = k) then
    fs.map (fun p => if p.1 = k then (k, v) else p)
  else fs ++ [(k, v)]

/-- Decimal value of a digit run. -/
def digitsVal (ds : List Char) : Nat :=
  ds.foldl (fun acc c => acc * 10 + (c.toNat - 48)) 0

/-- Parse the body of a string literal (after the opening quote),
accumulating characters in reverse. -/
def parseStrBody : Nat → List Char → List Char → Option (String × List Char)
  | 0, _, _ => none
  | _ + 1, acc, '"' :: rest => some (String.mk acc.reverse, rest)
  | fuel + 1, acc, '\\' :: e :: rest =>
      if e = '"' then parseStrBody fuel ('"' :: acc) rest
      else if e = '\\' then parseStrBody fuel ('\\' :: acc) rest
      else if e = '/' then parseStrBody fuel ('/' :: acc) rest
      else if e = 'b' then parseStrBody fuel ('\x08' :: acc) rest
      else if e = 'f' then parseStrBody fuel ('\x0c' :: acc) rest
      else if e = 'n' then parseStrBody fuel ('\n' :: acc) rest
      else if e = 'r' then parseStrBody fuel ('\r' :: acc) rest
      else if e = 't' then parseStrBody fuel ('\t' :: acc) rest
      else if e = 'u' then
        match rest with
        | h1 :: h2 :: h3 :: h4 :: rest2 =>
          match hexVal h1, hexVal h2, hexVal h3, hexVal h4 with
          | some v1, some v2, some v3, some v4 =>
            let code := ((v1 * 16 + v2) * 16 + v3) * 16 + v4
            if 0xd800 ≤ code && code ≤ 0xdfff then none
            else parseStrBody fuel (Char.ofNat code :: acc) rest2
          | _, _, _, _ => none
        | _ => none
      else none
  | fuel + 1, acc, c :: rest =>
      if c.toNat < 0x20 then none else parseStrBody fuel (c :: acc) rest
  | _, _, [] => none

/-- Parse a JSON number (integer mantissa, optional non-negative
exponent). -/
def parseNum (cs : List Char) : Option (JsonValue × List Char) :=
  let (neg, cs1) := match cs with
    | '-' :: rest => (true, rest)
    | _ => (false, cs)
  let ds := cs1.takeWhile (fun c => '0' ≤ c && c ≤ '9')
  if ds.isEmpty then none
  else if ds.length > 1 && ds.headD '0' = '0' then none
  else
    let rest := cs1.drop ds.length
    let core : Option (Nat × List Char) :=
      match rest with
      | '.' :: _ => none
      | 'e' :: r2 | 'E' :: r2 =>
        let r3 : Option (List Char) := match r2 with
          | '+' :: r4 => some r4
          | '-' :: _ => none
          | _ => some r2
        match r3 with
        | none => none
        | some r4 =>
          let es := r4.takeWhile (fun c => '0' ≤ c && c ≤ '9')
          if es.isEmpty then none
          else some (digitsVal ds * 10 ^ digitsVal es, r4.drop es.length)
      | _ => some (digitsVal ds, rest)
    match core with
    | none => none
    | some (n, rest2) =>
      some (.num (if neg then -(n : Int) else (n : Int)), rest2)

mutual

/-- Parse one JSON value after skipping leading whitespace. -/
def parseVal : Nat → List Char → Option (JsonValue × List Char)
  | 0, _ => none
  | fuel + 1, cs =>
    match cs.dropWhile jsonWsChar with
    | [] => none
    | c :: rest =>
      if c = 'n' then
        match rest with
        | 'u' :: 'l' :: 'l' :: rest2 => some (.null, rest2)
        | _ => none
      else if c = 't' then
        match rest with
        | 'r' :: 'u' :: 'e' :: rest2 => some (.bool true, rest2)
        | _ => none
      else if c = 'f' then
        match rest with
        | 'a' :: 'l' :: 's' :: 'e' :: rest2 => some (.bool false, rest2)
        | _ => none
      else if c = '"' then
        (parseStrBody (rest.length + 1) [] rest).map (fun p => (.str p.1, p.2))
      else if c = '[' then
        match rest.dropWhile jsonWsChar with
        | ']' :: rest2 => some (jarr [], rest2)
        | _ => (parseElems fuel rest []).map (fun p => (jarr p.1, p.2))
      else if c = '\x7b' then
        match rest.dropWhile jsonWsChar with
        | '\x7d' :: rest2 => some (jobj [], rest2)
        | _ => (parseMembers fuel rest []).map (fun p => (jobj p.1, p.2))
      else parseNum (c :: rest)

/-- Parse the elements of a non-empty array (after `[`). -/
def parseElems : Nat → List Char → List JsonValue → Option (List JsonValue × List Char)
  | 0, _, _ => none
  | fuel + 1, cs, acc =>
    match parseVal fuel cs with
    | none => none
    | some (v, rest) =>
      match rest.dropWhile jsonWsChar with
      | ',' :: rest2 => parseElems fuel rest2 (acc ++ [v])
      | ']' :: rest2 => some (acc ++ [v], rest2)
      | _ => none

/-- Parse the members of a non-empty object (after the opening brace). -/
def parseMembers : Nat → List Char → List (String × JsonValue) →
    Option (List (String × JsonValue) × List Char)
  | 0, _, _ => none
  | fuel + 1, cs, acc =>
    match cs.dropWhile jsonWsChar with
    | '"' :: rest =>
      match parseStrBody (rest.length + 1) [] rest with
      | none => none
      | some (k, rest2) =>
        match rest2.dropWhile jsonWsChar with
        | ':' :: rest3 =>
          match parseVal fuel rest3 with
          | none => none
          | some (v, rest4) =>
            match rest4.dropWhile jsonWsChar with
            | ',' :: rest5 => parseMembers fuel rest5 (upsertField acc k v)
            | '\x7d' :: rest5 => some (upsertField acc k v, rest5)
            | _ => none
        | _ => none
    | _ => none

end

/-- Model of `JSON.parse(s)`: parse one value, allow trailing JSON
whitespace, reject anything else. -/
def JSON_parse (s : String) : Except Unit JsonValue :=
  match parseVal (2 * s.length + 4) s.data with
  | some (v, rest) => if (rest.dropWhile jsonWsChar).isEmpty then .ok v else .error ()
  | none => .error ()

/-- Decidable equality of parse outcomes (for concrete evaluation). -/
instance : DecidableEq (Except Unit JsonValue) := fun a b =>
  match a, b with
  | .ok x, .ok y => decidable_of_iff (x = y) (by simp)
  | .error x, .error y => isTrue (by cases x; cases y; rfl)
  | .ok _, .error _ => isFalse (fun h => Except.noConfusion h)
  | .error _, .ok _ => isFalse (fun h => Except.noConfusion h)

/-! ## Webhook receiver (`src/app/api/webhooks/openai/route.ts` and the
typed variant `src/unnamed/part_000`) -/

/-- The agent identity object returned by `extractAgent` in `route.ts`
(field values are passed through untyped; `none` is JS `undefined`). -/
structure AgentIdentity : Type where
  id : Option JsonValue
  name : Option JsonValue
deriving DecidableEq

/-- `extractAgent` from `src/app/api/webhooks/openai/route.ts` lines
120-132: probe root `agent`/`target_agent`, then `step.agent` /
`run.last_step.agent`, then the flat `agent_id`/`agent_name` fields. -/
def extractAgent (evt : JsonValue) : Option AgentIdentity :=
  let fromRoot := JsonValue.jsOr (evt.jget "agent") (evt.jget "target_agent")
  if JsonValue.truthyOpt fromRoot then
    some ⟨JsonValue.jgetOpt fromRoot "id", JsonValue.jgetOpt fromRoot "name"⟩
  else
    let fromStep := JsonValue.jsOr (JsonValue.jgetOpt (evt.jget "step") "agent")
      (JsonValue.jgetOpt (JsonValue.jgetOpt (evt.jget "run") "last_step") "agent")
    if JsonValue.truthyOpt fromStep then
      some ⟨JsonValue.jgetOpt fromStep "id", JsonValue.jgetOpt fromStep "name"⟩
    else
      let id := JsonValue.nsq (evt.jget "agent_id")
        (JsonValue.nsq (JsonValue.jgetOpt (evt.jget "step") "agent_id")
          (JsonValue.jgetOpt (evt.jget "run") "agent_id"))
      let name := JsonValue.nsq (evt.jget "agent_name")
        (JsonValue.nsq (JsonValue.jgetOpt (evt.jget "step") "agent_name")
          (JsonValue.jgetOpt (evt.jget "run") "agent_name"))
      if JsonValue.truthyOpt id || JsonValue.truthyOpt name then some ⟨id, name⟩
      else none

/-- `isObj` from `src/unnamed/part_000`: non-null and of object type
(arrays included). -/
def isObj : JsonValue → Bool
  | .obj _ => true
  | .arr _ => true
  | _ => false

/-- `asString` from `src/unnamed/part_000`, lifted to possibly-absent
values: keep strings, coerce everything else to `undefined`. -/
def asString : Option JsonValue → Option String
  | some (.str s) => some s
  | _ => none

/-- `isObj(x) ? x : null`, the guard pattern of `src/unnamed/part_000`. -/
def objFilter (o : Option JsonValue) : Option JsonValue :=
  match o with
  | some v => if isObj v then some v else none
  | none => none

/-- The agent identity of the typed variant (`{ id?: string; name?: string }`). -/
structure AgentIdentityS : Type where
  id : Option String
  name : Option String
deriving DecidableEq

/-- `extractAgent` from `src/unnamed/part_000` lines 133-152: the same
probing order as `route.ts`, but candidates are required to be objects
and field values are coerced through `asString`. -/
def extractAgentTyped (evt : JsonValue) : Option AgentIdentityS :=
  let rootAgent := objFilter (evt.jget "agent")
  let targetAgent := objFilter (evt.jget "target_agent")
  let fromRoot := rootAgent.or targetAgent
  match fromRoot with
  | some v => some ⟨asString (v.jget "id"), asString (v.jget "name")⟩
  | none =>
    let step := objFilter (evt.jget "step")
    let run := objFilter (evt.jget "run")
    let lastStep := objFilter (JsonValue.jgetOpt run "last_step")
    let stepAgent := objFilter (JsonValue.jgetOpt step "agent")
    let runLastStepAgent := objFilter (JsonValue.jgetOpt lastStep "agent")
    let fromStep := stepAgent.or runLastStepAgent
    match fromStep with
    | some v => some ⟨asString (v.jget "id"), asString (v.jget "name")⟩
    | none =>
      let id := JsonValue.nsq (evt.jget "agent_id")
        (JsonValue.nsq (JsonValue.jgetOpt step "agent_id") (JsonValue.jgetOpt run "agent_id"))
      let name := JsonValue.nsq (evt.jget "agent_name")
        (JsonValue.nsq (JsonValue.jgetOpt step "agent_name") (JsonValue.jgetOpt run "agent_name"))
      if JsonValue.truthyOpt id || JsonValue.truthyOpt name then
        some ⟨asString id, asString name⟩
      else none

/-- `extractAgentResult` from `route.ts` lines 134-145: the first
non-nullish of root `result`, root `output`, root `data`, `step.result`,
`step.output`, `run.result`, with a final `?? null`. -/
def extractAgentResult (evt : JsonValue) : JsonValue :=
  (JsonValue.nsq (evt.jget "result")
    (JsonValue.nsq (evt.jget "output")
      (JsonValue.nsq (evt.jget "data")
        (JsonValue.nsq (JsonValue.jgetOpt (evt.jget "step") "result")
          (JsonValue.nsq (JsonValue.jgetOpt (evt.jget "step") "output")
            (JsonValue.jgetOpt (evt.jget "run") "result")))))).getD .null

/-- The environment configuration consumed by the handler. -/
structure Env : Type where
  webhookSecret : Option String
  targetAgentId : Option String
  targetAgentName : Option String

/-- JS falsiness of an optional environment string (`!secret`). -/
def envFalsy : Option String → Bool
  | none => true
  | some s => s == ""

/-- `process.env.X?.trim() || ""`. -/
def targetOf : Option String → String
  | none => ""
  | some s => jsTrim s

/-- JS `x ?? ""` for a possibly-absent value (used for `agent?.id ?? ""`
and the `String(... ?? "")` arguments). -/
def nsqStr (o : Option JsonValue) : JsonValue :=
  match o with
  | none => .str ""
  | some .null => .str ""
  | some v => v

/-- The row handed to `appendToSheet`.  `agentId`/`agentName` are the
raw values of `agent?.id ?? ""` / `agent?.name ?? ""` (untyped in
`route.ts`); the other fields pass through `String(...)`. -/
structure SheetRow : Type where
  timestamp : String
  runId : String
  agentId : JsonValue
  agentName : JsonValue
  userId : String
  dataJson : String
deriving DecidableEq

/-- The observable outcome of one `POST` invocation: HTTP status, JSON
response payload, and the list of storage-append calls made (each entry
is the row argument of one `appendToSheet` call). -/
structure PostResult : Type where
  status : Nat
  body : JsonValue
  rows : List SheetRow
deriving DecidableEq

/-- The tail of `POST` after all gates and the identity filter have
passed (lines 77-98 of `route.ts`): build the row, attempt the append,
return 200 `{ok:true}` on success and 500 on append failure.
`now` stands for `new Date().toISOString()` and `appendOk` for the
outcome of the external append call. -/
def acceptEvent (now : String) (appendOk : Bool) (evt : JsonValue)
    (agentId agentName : JsonValue) : PostResult :=
  let runId := jsToString (nsqStr (JsonValue.nsq (evt.jget "run_id")
    (JsonValue.jgetOpt (evt.jget "run") "id")))
  let userId := jsToString (nsqStr (JsonValue.nsq (evt.jget "user_id")
    (JsonValue.nsq (JsonValue.jgetOpt (evt.jget "scope") "user_id")
      (JsonValue.jgetOpt (evt.jget "run") "user_id"))))
  let payloadData := extractAgentResult evt
  let row : SheetRow :=
    ⟨now, runId, agentId, agentName, userId,
     if payloadData.truthy then jsonStringify payloadData else ""⟩
  if appendOk then ⟨200, jobj [("ok", .bool true)], [row]⟩
  else ⟨500, jobj [("error", .str "Sheets append failed")], [row]⟩

/-- `evt = rawBody ? JSON.parse(rawBody) : null` (line 42 of
`route.ts`), with a parse failure carried as `.error`. -/
def parsedBody (rawBody : String) : Except Unit JsonValue :=
  if rawBody == "" then .ok .null else JSON_parse rawBody

/-- `String(evt.type ?? evt.event ?? "")` (line 52). -/
def eventTypeOf (evt : JsonValue) : String :=
  jsToString (nsqStr (JsonValue.nsq (evt.jget "type") (evt.jget "event")))

/-- `agent?.id ?? ""` for the extracted agent (line 61). -/
def agentIdOf (evt : JsonValue) : JsonValue :=
  nsqStr ((extractAgent evt).bind (fun a => a.id))

/-- `agent?.name ?? ""` for the extracted agent (line 62). -/
def agentNameOf (evt : JsonValue) : JsonValue :=
  nsqStr ((extractAgent evt).bind (fun a => a.name))

/-- The identity filter and append tail of `POST` (lines 57-98 of
`route.ts`): filter on the configured target id, else the configured
target name, else accept all; then build and append the row. -/
def filterAndAppend (env : Env) (now : String) (appendOk : Bool)
    (evt : JsonValue) : PostResult :=
  let targetAgentId := targetOf env.targetAgentId
  let targetAgentName := targetOf env.targetAgentName
  let agentId := agentIdOf evt
  let agentName := agentNameOf evt
  if targetAgentId != "" then
    if !agentId.truthy || !(agentId.strictEqStr targetAgentId) then
      ⟨200, jobj [("ok", .bool true), ("ignored", .bool true),
        ("reason", .str "agent_id mismatch")], []⟩
    else acceptEvent now appendOk evt agentId agentName
  else if targetAgentName != "" then
    if !agentName.truthy || !(agentName.strictEqStr targetAgentName) then
      ⟨200, jobj [("ok", .bool true), ("ignored", .bool true),
        ("reason", .str "agent_name mismatch")], []⟩
    else acceptEvent now appendOk evt agentId agentName
  else acceptEvent now appendOk evt agentId agentName

/-- The `POST` handler of `src/app/api/webhooks/openai/route.ts` lines
19-99.  `providedSig` is the value of the signature header chain (empty
when no header is present); `now` models the clock; `appendOk` models
whether the external storage append succeeds. -/
def POST (env : Env) (now : String) (appendOk : Bool)
    (rawBody : String) (providedSig : String) : PostResult :=
  if envFalsy env.webhookSecret then
    ⟨500, jobj [("error", .str "Missing OPENAI_WEBHOOK_SECRET")], []⟩
  else
    let secret := env.webhookSecret.getD ""
    let valid := verifyHmacSha256 (utf8Bytes rawBody) (utf8Bytes secret) (utf8Bytes providedSig)
    if !valid then ⟨401, jobj [("error", .str "Invalid signature")], []⟩
    else
      match parsedBody rawBody with
      | .error _ => ⟨400, jobj [("error", .str "Invalid JSON")], []⟩
      | .ok evt =>
        if !evt.truthy then ⟨400, jobj [("error", .str "Empty event")], []⟩
        else if !testCompleted (eventTypeOf evt) then
          ⟨200, jobj [("ok", .bool true), ("ignored", .bool true)], []⟩
        else filterAndAppend env now appendOk evt

/-- The webhook module keeps no state between invocations; a sequence of
requests is processed independently.  Returns all outcomes. -/
def processRequests (env : Env) (now : String) (appendOk : Bool)
    (reqs : List (String × String)) : List PostResult :=
  reqs.map (fun r => POST env now appendOk r.1 r.2)

/-! ## Chat panel fact recorder (`src/components/ChatKitPanel.tsx`) -/

/-- The `FactAction` payload handed to `onWidgetAction` (its `type`
field is always the literal "save" in the source). -/
structure FactAction : Type where
  factId : String
  factText : String
deriving DecidableEq

/-- An externally observable effect of the panel handlers. -/
inductive PanelEffect : Type where
  | widgetAction : FactAction → PanelEffect
  | themeRequest : String → PanelEffect
deriving DecidableEq

/-- The result object returned to the ChatKit runtime by `onClientTool`. -/
structure ClientToolResult : Type where
  success : Bool
deriving DecidableEq

/-- The panel state relevant to the fact recorder: the `processedFacts`
ref (a set of fact ids, modelled as a duplicate-free list).  The
remaining component state (script status, error flags, widget instance
key) is browser UI state not referenced by the dedup logic. -/
structure PanelState : Type where
  processedFacts : List String
deriving DecidableEq

/-- The `onClientTool` handler of `ChatKitPanel.tsx` lines 284-316:
`switch_theme` forwards a valid theme; `record_fact` forwards a
whitespace-normalised fact at most once per fact id. -/
def onClientTool (st : PanelState) (name : String) (params : JsonValue) :
    PanelState × List PanelEffect × ClientToolResult :=
  if name == "switch_theme" then
    match params.jget "theme" with
    | some (.str "light") => (st, [.themeRequest "light"], ⟨true⟩)
    | some (.str "dark") => (st, [.themeRequest "dark"], ⟨true⟩)
    | _ => (st, [], ⟨false⟩)
  else if name == "record_fact" then
    let id := jsToString (nsqStr (params.jget "fact_id"))
    let text := jsToString (nsqStr (params.jget "fact_text"))
    if id == "" || st.processedFacts.contains id then (st, [], ⟨true⟩)
    else
      (⟨st.processedFacts ++ [id]⟩,
       [.widgetAction ⟨id, jsTrim (jsReplaceWsRuns text)⟩], ⟨true⟩)
  else (st, [], ⟨false⟩)

/-- An event in the life of one mounted panel. -/
inductive PanelEvent : Type where
  | clientTool : String → JsonValue → PanelEvent
  | threadChange : PanelEvent
  | resetChat : PanelEvent

/-- One step of the panel: `onClientTool`, the `onThreadChange` handler
(clears `processedFacts`), or `handleResetChat` (clears `processedFacts`
among its UI resets). -/
def stepPanel (st : PanelState) : PanelEvent → PanelState × List PanelEffect
  | .clientTool name params =>
    let r := onClientTool st name params
    (r.1, r.2.1)
  | .threadChange => (⟨[]⟩, [])
  | .resetChat => (⟨[]⟩, [])

/-- Run a sequence of panel events, accumulating effects in order. -/
def runPanel (st : PanelState) : List PanelEvent → PanelState × List PanelEffect
  | [] => (st, [])
  | e :: es =>
    let r := stepPanel st e
    let rest := runPanel r.1 es
    (rest.1, r.2 ++ rest.2)

/-! ## Lemmas about the signature comparison -/

/-- `leadMatch pat l` holds exactly when the first `pat.length` elements
of `l` are `pat`. -/
theorem leadMatch_eq_true_iff {α : Type} [DecidableEq α] [LawfulBEq α] :
    ∀ (pat l : List α), leadMatch pat l = true ↔ l.take pat.length = pat := by
  intro pat
  induction pat with
  | nil => intro l; simp [leadMatch]
  | cons p ps ih =>
    intro l
    cases l with
    | nil => simp [leadMatch]
    | cons c cs =>
      simp only [leadMatch, Bool.and_eq_true, beq_iff_eq, ih, List.length_cons,
        List.take_succ_cons, List.cons.injEq]
      constructor
      · rintro ⟨h1, h2⟩; exact ⟨h1.symm, h2⟩
      · rintro ⟨h1, h2⟩; exact ⟨h1.symm, h2⟩

/-- The hex alphabet stays below the ASCII code of "s" (115). -/
theorem hexDigitByte_lt_s (m : Nat) (h : m ≤ 15) : hexDigitByte m < 115 := by
  unfold hexDigitByte; split <;> omega

/-- A SHA-256 digest starts with a byte ≤ 255. -/
theorem sha256_head_byte (msg : List Nat) :
    ∃ b t, sha256 msg = b :: t ∧ b ≤ 255 :=
  ⟨_, _, rfl, Nat.and_le_right⟩

/-- The hex encoding of a SHA-256 digest never starts with the
"sha256=" tag (its first character is a hex digit, not "s"). -/
theorem leadMatch_tag_hex_sha256 (msg : List Nat) :
    leadMatch sigTagBytes (hexBytes (sha256 msg)) = false := by
  obtain ⟨b, t, hbt, hb⟩ := sha256_head_byte msg
  rw [hbt]
  have htag : sigTagBytes = 115 :: [104, 97, 50, 53, 54, 61] := by decide
  have hhex : hexBytes (b :: t) = hexDigitByte (b / 16) :: hexDigitByte (b % 16) :: hexBytes t := rfl
  rw [htag, hhex]
  have hlt : hexDigitByte (b / 16) < 115 := by
    apply hexDigitByte_lt_s
    omega
  simp only [leadMatch, Bool.and_eq_false_iff]
  left
  simp only [beq_eq_false_iff_ne, ne_eq]
  omega

/-- C1: `verifyHmacSha256` is a total boolean function characterised by:
it returns true iff the provided signature, after stripping one optional
leading "sha256=", equals the lowercase hex encoding of HMAC-SHA-256 of
the body keyed by the secret; equivalently the accepted signatures are
exactly the bare hex digest and the "sha256="-tagged hex digest, so in
particular both tagged and untagged correct signatures verify and any
other signature string (e.g. any mutation of a correct one) is
rejected. -/
theorem verifyHmacSha256_characterized (body secret provided : List Nat) :
    (verifyHmacSha256 body secret provided = true ↔
      stripSigTag provided = hexBytes (hmacSha256 secret body)) ∧
    (verifyHmacSha256 body secret provided = true ↔
      (provided = hexBytes (hmacSha256 secret body) ∨
       provided = sigTagBytes ++ hexBytes (hmacSha256 secret body))) ∧
    verifyHmacSha256 body secret (hexBytes (hmacSha256 secret body)) = true ∧
    verifyHmacSha256 body secret (sigTagBytes ++ hexBytes (hmacSha256 secret body)) = true := by
  have hbase : ∀ p, verifyHmacSha256 body secret p = true ↔
      stripSigTag p = hexBytes (hmacSha256 secret body) := by
    intro p
    simp only [verifyHmacSha256, timingSafeEqual, Bool.and_eq_true, beq_iff_eq]
    constructor
    · rintro ⟨-, h⟩; exact h.symm
    · intro h; exact ⟨by rw [h], h.symm⟩
  have htagfree : leadMatch sigTagBytes (hexBytes (hmacSha256 secret body)) = false := by
    unfold hmacSha256
    exact leadMatch_tag_hex_sha256 _
  have htaglen : sigTagBytes.length = 7 := by decide
  have hstrip : ∀ p, stripSigTag p = hexBytes (hmacSha256 secret body) ↔
      (p = hexBytes (hmacSha256 secret body) ∨
       p = sigTagBytes ++ hexBytes (hmacSha256 secret body)) := by
    intro p
    unfold stripSigTag
    by_cases hm : leadMatch sigTagBytes p = true
    · have htake : p.take 7 = sigTagBytes := by
        have := (leadMatch_eq_true_iff sigTagBytes p).mp hm
        rwa [htaglen] at this
      rw [if_pos hm]
      constructor
      · intro h
        right
        calc p = p.take 7 ++ p.drop 7 := (List.take_append_drop 7 p).symm
          _ = sigTagBytes ++ hexBytes (hmacSha256 secret body) := by rw [htake, h]
      · rintro (h | h)
        · rw [h] at hm
          rw [hm] at htagfree
          cases htagfree
        · rw [h]
          have h7 : sigTagBytes.length = 7 := htaglen
          rw [← h7, List.drop_left]
    · rw [if_neg hm]
      constructor
      · intro h; exact Or.inl h
      · rintro (h | h)
        · exact h
        · exfalso
          apply hm
          rw [h, leadMatch_eq_true_iff]
          exact List.take_left _ _
  refine ⟨hbase provided, (hbase provided).trans (hstrip provided), ?_, ?_⟩
  · rw [hbase, hstrip]; left; rfl
  · rw [hbase, hstrip]; right; rfl

/-! ## C3: extractAgent probing order -/

/-- Is a possibly-absent field value set (present and non-null)? -/
def isSetOpt : Option JsonValue → Bool
  | none => false
  | some .null => false
  | some _ => true

/-- The object-location match rule as the specification words it: the
candidate must exist (be truthy) AND have at least one of id/name set;
on a match it contributes its id/name pair. -/
def claimObjMatch (cand : Option JsonValue) : Option AgentIdentity :=
  if JsonValue.truthyOpt cand &&
      (isSetOpt (JsonValue.jgetOpt cand "id") || isSetOpt (JsonValue.jgetOpt cand "name")) then
    some ⟨JsonValue.jgetOpt cand "id", JsonValue.jgetOpt cand "name"⟩
  else none

/-- The agent-identity resolution exactly as the specification claims
it: ordered probing of root `agent`/`target_agent`, then `step.agent` /
`run.last_step.agent`, then the flat fields, where an object location
only matches when it has at least one of id/name set. -/
def extractAgentClaimed (evt : JsonValue) : Option AgentIdentity :=
  (claimObjMatch (JsonValue.jsOr (evt.jget "agent") (evt.jget "target_agent"))).or
    ((claimObjMatch (JsonValue.jsOr (JsonValue.jgetOpt (evt.jget "step") "agent")
        (JsonValue.jgetOpt (JsonValue.jgetOpt (evt.jget "run") "last_step") "agent"))).or
      (let id := JsonValue.nsq (evt.jget "agent_id")
        (JsonValue.nsq (JsonValue.jgetOpt (evt.jget "step") "agent_id")
          (JsonValue.jgetOpt (evt.jget "run") "agent_id"))
      let name := JsonValue.nsq (evt.jget "agent_name")
        (JsonValue.nsq (JsonValue.jgetOpt (evt.jget "step") "agent_name")
          (JsonValue.jgetOpt (evt.jget "run") "agent_name"))
      if JsonValue.truthyOpt id || JsonValue.truthyOpt name then some ⟨id, name⟩ else none))

/-- An event whose root `agent` is an empty object while `step.agent`
carries an id. -/
def evtAgentEmptyObj : JsonValue :=
  jobj [("agent", jobj []), ("step", jobj [("agent", jobj [("id", JsonValue.str "a1")])])]

/-- C3 counterexample: on an event with `agent:{}` and
`step:{agent:{id:"a1"}}` the code matches the empty root object (a
truthy object with neither id nor name) and returns an identity with
both fields absent, whereas the claimed rule would fall through to
`step.agent` and resolve id "a1". -/
theorem extractAgent_emptyObj_counterexample :
    extractAgent evtAgentEmptyObj = some ⟨none, none⟩ ∧
    extractAgentClaimed evtAgentEmptyObj = some ⟨some (JsonValue.str "a1"), none⟩ ∧
    extractAgent evtAgentEmptyObj ≠ extractAgentClaimed evtAgentEmptyObj := by
  decide

/-- The object-location match rule the code actually implements: any
truthy candidate matches and contributes its id/name pair, set or not. -/
def codeObjMatch (cand : Option JsonValue) : Option AgentIdentity :=
  if JsonValue.truthyOpt cand then
    some ⟨JsonValue.jgetOpt cand "id", JsonValue.jgetOpt cand "name"⟩
  else none

/-- The ordered first-match-wins probe list for the amended claim. -/
def probeRules (evt : JsonValue) : List (Option AgentIdentity) :=
  [codeObjMatch (JsonValue.jsOr (evt.jget "agent") (evt.jget "target_agent")),
   codeObjMatch (JsonValue.jsOr (JsonValue.jgetOpt (evt.jget "step") "agent")
     (JsonValue.jgetOpt (JsonValue.jgetOpt (evt.jget "run") "last_step") "agent")),
   (let id := JsonValue.nsq (evt.jget "agent_id")
      (JsonValue.nsq (JsonValue.jgetOpt (evt.jget "step") "agent_id")
        (JsonValue.jgetOpt (evt.jget "run") "agent_id"))
    let name := JsonValue.nsq (evt.jget "agent_name")
      (JsonValue.nsq (JsonValue.jgetOpt (evt.jget "step") "agent_name")
        (JsonValue.jgetOpt (evt.jget "run") "agent_name"))
    if JsonValue.truthyOpt id || JsonValue.truthyOpt name then some ⟨id, name⟩ else none)]

/-- C3 amended: `extractAgent` is the first-match-wins probe over root
`agent`/`target_agent`, then `step.agent`/`run.last_step.agent`, then
the flat scalar fields — where an object location matches whenever the
candidate is truthy (an empty object matches, with both fields absent),
and only the flat location requires at least one of id/name truthy;
once a location matches its pair is final with no merging. -/
theorem extractAgent_probe_order (evt : JsonValue) :
    extractAgent evt = ((probeRules evt).filterMap id).head? := by
  unfold extractAgent probeRules codeObjMatch
  by_cases h1 : JsonValue.truthyOpt (JsonValue.jsOr (evt.jget "agent") (evt.jget "target_agent"))
  · simp [h1]
  · by_cases h2 : JsonValue.truthyOpt (JsonValue.jsOr (JsonValue.jgetOpt (evt.jget "step") "agent")
        (JsonValue.jgetOpt (JsonValue.jgetOpt (evt.jget "run") "last_step") "agent"))
    · simp [h1, h2]
    · by_cases h3 : (JsonValue.truthyOpt (JsonValue.nsq (evt.jget "agent_id")
          (JsonValue.nsq (JsonValue.jgetOpt (evt.jget "step") "agent_id")
            (JsonValue.jgetOpt (evt.jget "run") "agent_id"))) ||
          JsonValue.truthyOpt (JsonValue.nsq (evt.jget "agent_name")
            (JsonValue.nsq (JsonValue.jgetOpt (evt.jget "step") "agent_name")
              (JsonValue.jgetOpt (evt.jget "run") "agent_name")))) = true
      · simp [h1, h2, h3]
      · simp [h1, h2, h3]

/-! ## C7: field contribution and string coercion -/

/-- An event whose root agent id is the number 5. -/
def evtAgentNumId : JsonValue := jobj [("agent", jobj [("id", JsonValue.num 5)])]

/-- C7 counterexample: `route.ts`'s `extractAgent` passes the non-string
id value 5 through unchanged instead of coercing it to absent; the typed
variant (`part_000`) does coerce it to absent. -/
theorem extractAgent_nonString_counterexample :
    extractAgent evtAgentNumId = some ⟨some (JsonValue.num 5), none⟩ ∧
    extractAgent evtAgentNumId ≠ some ⟨none, none⟩ ∧
    extractAgentTyped evtAgentNumId = some ⟨none, none⟩ := by
  decide

/-- C7 amended: each matching candidate location contributes both its
`id` and `name` fields; the typed variant (`part_000`) coerces an
absent or non-string field value to absent via `asString`, while
`route.ts`'s `extractAgent` returns the raw field values unchanged, so a
non-string value is passed through rather than coerced. -/
theorem extractAgent_contribution (evt : JsonValue) (v : JsonValue) :
    (JsonValue.jsOr (evt.jget "agent") (evt.jget "target_agent") = some v →
      JsonValue.truthy v = true →
      extractAgent evt = some ⟨v.jget "id", v.jget "name"⟩) ∧
    ((objFilter (evt.jget "agent")).or (objFilter (evt.jget "target_agent")) = some v →
      extractAgentTyped evt = some ⟨asString (v.jget "id"), asString (v.jget "name")⟩) ∧
    (JsonValue.truthyOpt (JsonValue.jsOr (evt.jget "agent") (evt.jget "target_agent")) = false →
      JsonValue.jsOr (JsonValue.jgetOpt (evt.jget "step") "agent")
        (JsonValue.jgetOpt (JsonValue.jgetOpt (evt.jget "run") "last_step") "agent") = some v →
      JsonValue.truthy v = true →
      extractAgent evt = some ⟨v.jget "id", v.jget "name"⟩) ∧
    ((objFilter (evt.jget "agent")).or (objFilter (evt.jget "target_agent")) = none →
      (objFilter (JsonValue.jgetOpt (objFilter (evt.jget "step")) "agent")).or
        (objFilter (JsonValue.jgetOpt
          (objFilter (JsonValue.jgetOpt (objFilter (evt.jget "run")) "last_step")) "agent")) = some v →
      extractAgentTyped evt = some ⟨asString (v.jget "id"), asString (v.jget "name")⟩) := by
  refine ⟨?_, ?_, ?_, ?_⟩
  · intro hroot htr
    simp only [extractAgent]
    rw [hroot]
    simp [JsonValue.truthyOpt, htr, JsonValue.jgetOpt]
  · intro hroot
    simp only [extractAgentTyped]
    rw [hroot]
  · intro hroot hstep htr
    simp only [extractAgent]
    rw [hroot]
    rw [if_neg Bool.false_ne_true]
    rw [hstep]
    simp [JsonValue.truthyOpt, htr, JsonValue.jgetOpt]
  · intro hroot hstep
    simp only [extractAgentTyped]
    rw [hroot]
    simp only []
    rw [hstep]

/-! ## C4: result payload lookup and serialization -/

/-- The specification's candidate list for the result payload, in its
exact order. -/
def specResultCandidates (evt : JsonValue) : List (Option JsonValue) :=
  [evt.jget "result", evt.jget "output", evt.jget "data",
   JsonValue.jgetOpt (evt.jget "step") "result",
   JsonValue.jgetOpt (evt.jget "step") "output",
   JsonValue.jgetOpt (evt.jget "run") "result"]

/-- Drop a nullish (absent or null) candidate. -/
def dropNullish : Option JsonValue → Option JsonValue
  | none => none
  | some .null => none
  | some v => some v

/-- The result payload as the specification words it: the first
candidate that is neither null nor undefined. -/
def specResultLookup (evt : JsonValue) : Option JsonValue :=
  (specResultCandidates evt).findSome? dropNullish

/-- First-non-nullish search coincides with a right fold of `??`. -/
theorem findSome_dropNullish_foldr :
    ∀ l : List (Option JsonValue),
      l.findSome? dropNullish = l.foldr JsonValue.nsq none := by
  intro l
  induction l with
  | nil => rfl
  | cons a t ih =>
    cases a with
    | none => simpa [List.findSome?, dropNullish, JsonValue.nsq] using ih
    | some v =>
      cases v <;> simp [List.findSome?, dropNullish, JsonValue.nsq, ih]

/-- `?? null` at the end of a chain and `.getD null` of the fold agree. -/
theorem nsq_getD_congr (a : Option JsonValue) (t1 t2 : Option JsonValue)
    (h : t1.getD .null = t2.getD .null) :
    (JsonValue.nsq a t1).getD .null = (JsonValue.nsq a t2).getD .null := by
  cases a with
  | none => exact h
  | some v => cases v <;> simp [JsonValue.nsq, h]

/-- A one-candidate chain ending in `none` agrees with the candidate. -/
theorem nsq_none_getD (a : Option JsonValue) :
    (JsonValue.nsq a none).getD .null = a.getD .null := by
  cases a with
  | none => rfl
  | some v => cases v <;> rfl

/-- C4 amended: `extractAgentResult` returns the first candidate that is
neither null nor undefined, checked in the exact order root `result`,
root `output`, root `data`, `step.result`, `step.output`, `run.result`
(null when none is found); the accepted-path serialization stringifies
only a truthy found value — a found falsy value (`false`, `0`, `""`,
`null`) produces the empty-string `data_json` exactly like the
none-found case. -/
theorem extractAgentResult_order_serialization :
    (∀ evt, extractAgentResult evt = (specResultLookup evt).getD .null) ∧
    (∀ now appendOk evt agentId agentName,
      (acceptEvent now appendOk evt agentId agentName).rows.map (fun r => r.dataJson) =
        [if (extractAgentResult evt).truthy then jsonStringify (extractAgentResult evt) else ""]) := by
  constructor
  · intro evt
    unfold specResultLookup specResultCandidates
    rw [findSome_dropNullish_foldr]
    simp only [List.foldr]
    unfold extractAgentResult
    exact nsq_getD_congr _ _ _ (nsq_getD_congr _ _ _ (nsq_getD_congr _ _ _
      (nsq_getD_congr _ _ _ (nsq_getD_congr _ _ _ (nsq_none_getD _).symm))))
  · intro now appendOk evt agentId agentName
    unfold acceptEvent
    cases appendOk <;> simp

/-- The environment with a secret configured and no identity filter. -/
def envNoFilter : Env := ⟨some "whsec", none, none⟩

/-- ASCII string of a byte sequence (inverse of `utf8Bytes` on ASCII). -/
def asciiOfBytes (bs : List Nat) : String := String.mk (bs.map Char.ofNat)

/-- The correct hex signature string for a secret and body. -/
def sigFor (secret body : String) : String :=
  asciiOfBytes (hexBytes (hmacSha256 (utf8Bytes secret) (utf8Bytes body)))

/-- A signed completion event whose result payload is the JSON value
`false`. -/
def bodyFalseResult : String := "\x7b\"type\":\"run.completed\",\"result\":false\x7d"

/-- The parsed form of `bodyFalseResult`. -/
def evtFalseResult : JsonValue :=
  jobj [("type", JsonValue.str "run.completed"), ("result", JsonValue.bool false)]

/-- C4 counterexample: on an accepted event with `result:false`, the
lookup finds the JSON-serializable value `false` whose
`JSON.stringify` is "false", yet the appended row's `data_json` is the
empty string (the code stringifies only truthy payloads). -/
theorem extractAgentResult_falsy_counterexample :
    JSON_parse bodyFalseResult = .ok evtFalseResult ∧
    specResultLookup evtFalseResult = some (JsonValue.bool false) ∧
    jsonStringify (JsonValue.bool false) = "false" ∧
    (POST envNoFilter "T" true bodyFalseResult (sigFor "whsec" bodyFalseResult)).status = 200 ∧
    (POST envNoFilter "T" true bodyFalseResult (sigFor "whsec" bodyFalseResult)).rows.map
      (fun r => r.dataJson) = [""] := by
  refine ⟨by decide, by decide, by decide, by decide, by decide⟩

/-- An event whose root agent has a numeric id and a string name. -/
def evtC7Root : JsonValue :=
  jobj [("agent", jobj [("id", JsonValue.num 7), ("name", JsonValue.str "N")])]

/-- An event with only `step.agent.name` set. -/
def evtC7Step : JsonValue :=
  jobj [("step", jobj [("agent", jobj [("name", JsonValue.str "S")])])]

/-- Concrete instances of the contribution/coercion theorem: the root
and step candidates contribute both fields, with the numeric id passed
through raw by `route.ts` and coerced to absent by the typed variant. -/
theorem extractAgent_contribution_witness :
    extractAgent evtC7Root = some ⟨some (JsonValue.num 7), some (JsonValue.str "N")⟩ ∧
    extractAgentTyped evtC7Root = some ⟨none, some "N"⟩ ∧
    extractAgent evtC7Step = some ⟨none, some (JsonValue.str "S")⟩ ∧
    extractAgentTyped evtC7Step = some ⟨none, some "S"⟩ := by
  refine ⟨?_, ?_, ?_, ?_⟩
  · exact (extractAgent_contribution evtC7Root
      (jobj [("id", JsonValue.num 7), ("name", JsonValue.str "N")])).1 (by decide) (by decide)
  · exact (extractAgent_contribution evtC7Root
      (jobj [("id", JsonValue.num 7), ("name", JsonValue.str "N")])).2.1 (by decide)
  · exact (extractAgent_contribution evtC7Step
      (jobj [("name", JsonValue.str "S")])).2.2.1 (by decide) (by decide) (by decide)
  · exact (extractAgent_contribution evtC7Step
      (jobj [("name", JsonValue.str "S")])).2.2.2 (by decide) (by decide)

/-! ## C10: record_fact dedup in the chat panel -/

/-- Number of `onWidgetAction` invocations for a given fact id among a
list of effects. -/
def countFact (f : String) (effs : List PanelEffect) : Nat :=
  effs.countP (fun e => match e with
    | .widgetAction a => a.factId == f
    | _ => false)

/-- Is a panel event a client-tool invocation (no thread change or
reset)? -/
def isToolEvent : PanelEvent → Bool
  | .clientTool _ _ => true
  | _ => false

/-- One `onClientTool` call either leaves the fact set unchanged and
emits no widget action for `f`, or appends some other id and emits
nothing for `f`, or emits exactly one action for `f` and records `f`. -/
theorem onClientTool_fact_cases (st : PanelState) (name : String)
    (params : JsonValue) (f : String) :
    (countFact f (onClientTool st name params).2.1 = 0 ∧
      (onClientTool st name params).1.processedFacts = st.processedFacts) ∨
    (∃ i, countFact f (onClientTool st name params).2.1 = 0 ∧ i ≠ f ∧
      (onClientTool st name params).1.processedFacts = st.processedFacts ++ [i]) ∨
    (countFact f (onClientTool st name params).2.1 = 1 ∧
      f ∉ st.processedFacts ∧
      (onClientTool st name params).1.processedFacts = st.processedFacts ++ [f]) := by
  unfold onClientTool
  by_cases h1 : (name == "switch_theme") = true
  · rw [if_pos h1]
    left
    split <;> simp [countFact, List.countP_cons, List.countP_nil]
  · rw [if_neg h1]
    by_cases h2 : (name == "record_fact") = true
    · rw [if_pos h2]
      by_cases h3 : ((jsToString (nsqStr (params.jget "fact_id")) == "" ||
          (st.processedFacts.contains (jsToString (nsqStr (params.jget "fact_id"))))) = true)
      · rw [if_pos h3]
        left
        exact ⟨by simp [countFact, List.countP_nil], rfl⟩
      · rw [if_neg h3]
        by_cases h4 : jsToString (nsqStr (params.jget "fact_id")) = f
        · right; right
          refine ⟨by simp [countFact, List.countP_cons, List.countP_nil, h4], ?_, by rw [h4]⟩
          intro hmem
          apply h3
          rw [h4]
          have hc : st.processedFacts.contains f = true := List.elem_iff.mpr hmem
          simp [hc]
          exact Or.inr hmem
        · right; left
          exact ⟨jsToString (nsqStr (params.jget "fact_id")),
            by simp [countFact, List.countP_cons, List.countP_nil, h4], h4, rfl⟩
    · rw [if_neg h2]
      left
      exact ⟨by simp [countFact, List.countP_nil], rfl⟩


/-- Once a fact id is recorded, a clear-free run of client-tool events
never emits a widget action for it again. -/
theorem runPanel_no_reemission (f : String) :
    ∀ (evts : List PanelEvent) (st : PanelState),
      evts.all isToolEvent = true → f ∈ st.processedFacts →
      countFact f (runPanel st evts).2 = 0 := by
  intro evts
  induction evts with
  | nil => intro st _ _; simp [runPanel, countFact, List.countP_nil]
  | cons e es ih =>
    intro st hall hmem
    cases e with
    | clientTool name params =>
      have hall2 : es.all isToolEvent = true := by
        rw [List.all_cons, Bool.and_eq_true] at hall; exact hall.2
      simp only [runPanel, stepPanel, countFact, List.countP_append]
      rcases onClientTool_fact_cases st name params f with
        ⟨hc, hst⟩ | ⟨i, hc, hne, hst⟩ | ⟨hc, hnm, hst⟩
      · have hmem2 : f ∈ (onClientTool st name params).1.processedFacts := by
          rw [hst]; exact hmem
        have hrest := ih (onClientTool st name params).1 hall2 hmem2
        unfold countFact at hc hrest
        omega
      · have hmem2 : f ∈ (onClientTool st name params).1.processedFacts := by
          rw [hst]; exact List.mem_append_left _ hmem
        have hrest := ih (onClientTool st name params).1 hall2 hmem2
        unfold countFact at hc hrest
        omega
      · exact absurd hmem hnm
    | threadChange => simp [List.all_cons, isToolEvent] at hall
    | resetChat => simp [List.all_cons, isToolEvent] at hall

/-- Within a clear-free run of client-tool events, at most one widget
action is emitted per fact id. -/
theorem runPanel_at_most_once (f : String) :
    ∀ (evts : List PanelEvent) (st : PanelState),
      evts.all isToolEvent = true →
      countFact f (runPanel st evts).2 ≤ 1 := by
  intro evts
  induction evts with
  | nil => intro st _; simp [runPanel, countFact, List.countP_nil]
  | cons e es ih =>
    intro st hall
    cases e with
    | clientTool name params =>
      have hall2 : es.all isToolEvent = true := by
        rw [List.all_cons, Bool.and_eq_true] at hall; exact hall.2
      simp only [runPanel, stepPanel, countFact, List.countP_append]
      rcases onClientTool_fact_cases st name params f with
        ⟨hc, hst⟩ | ⟨i, hc, hne, hst⟩ | ⟨hc, hnm, hst⟩
      · have hrest := ih (onClientTool st name params).1 hall2
        unfold countFact at hc hrest
        omega
      · have hrest := ih (onClientTool st name params).1 hall2
        unfold countFact at hc hrest
        omega
      · have hmem : f ∈ (onClientTool st name params).1.processedFacts := by
          rw [hst]; exact List.mem_append_right _ (List.mem_singleton.mpr rfl)
        have hrest := runPanel_no_reemission f es (onClientTool st name params).1 hall2 hmem
        unfold countFact at hc hrest
        omega
    | threadChange => simp [List.all_cons, isToolEvent] at hall
    | resetChat => simp [List.all_cons, isToolEvent] at hall

/-- C10: within one widget lifetime the `record_fact` handler invokes
`onWidgetAction` at most once per distinct fact id: an empty or
already-seen fact id returns success without any action; a fresh id is
recorded and forwarded once with its text whitespace-collapsed and
trimmed; a thread change or a chat reset clears `processedFacts`, after
which a previously seen id triggers the action again. -/
theorem record_fact_dedup (st : PanelState) (params : JsonValue)
    (evts : List PanelEvent) (f : String) :
    ((jsToString (nsqStr (params.jget "fact_id")) = "" ∨
        st.processedFacts.contains (jsToString (nsqStr (params.jget "fact_id"))) = true) →
      onClientTool st "record_fact" params = (st, [], ⟨true⟩)) ∧
    (jsToString (nsqStr (params.jget "fact_id")) ≠ "" →
      st.processedFacts.contains (jsToString (nsqStr (params.jget "fact_id"))) = false →
      onClientTool st "record_fact" params =
        (⟨st.processedFacts ++ [jsToString (nsqStr (params.jget "fact_id"))]⟩,
         [.widgetAction ⟨jsToString (nsqStr (params.jget "fact_id")),
            jsTrim (jsReplaceWsRuns (jsToString (nsqStr (params.jget "fact_text"))))⟩],
         ⟨true⟩)) ∧
    (stepPanel st .threadChange = (⟨[]⟩, []) ∧ stepPanel st .resetChat = (⟨[]⟩, [])) ∧
    (evts.all isToolEvent = true → countFact f (runPanel st evts).2 ≤ 1) ∧
    (jsToString (nsqStr (params.jget "fact_id")) ≠ "" →
      countFact (jsToString (nsqStr (params.jget "fact_id")))
        (runPanel st [.threadChange, .clientTool "record_fact" params]).2 = 1) := by
  refine ⟨?_, ?_, ⟨rfl, rfl⟩, runPanel_at_most_once f evts st, ?_⟩
  · intro h
    unfold onClientTool
    rw [if_neg (by decide), if_pos (by decide)]
    have hcond : (jsToString (nsqStr (params.jget "fact_id")) == "" ||
        st.processedFacts.contains (jsToString (nsqStr (params.jget "fact_id")))) = true := by
      rcases h with h | h
      · simp [h]
      · have hm : jsToString (nsqStr (params.jget "fact_id")) ∈ st.processedFacts :=
          List.elem_iff.mp h
        simp [hm]
    rw [if_pos hcond]
  · intro hne hfresh
    unfold onClientTool
    rw [if_neg (by decide), if_pos (by decide)]
    have hcond : ¬((jsToString (nsqStr (params.jget "fact_id")) == "" ||
        st.processedFacts.contains (jsToString (nsqStr (params.jget "fact_id")))) = true) := by
      simp [hne, hfresh]
      intro hm
      have hc : st.processedFacts.contains (jsToString (nsqStr (params.jget "fact_id"))) = true :=
        List.elem_iff.mpr hm
      rw [hc] at hfresh
      cases hfresh
    rw [if_neg hcond]
  · intro hne
    simp only [runPanel, stepPanel]
    unfold onClientTool
    rw [if_neg (by decide), if_pos (by decide)]
    have hcond : ¬((jsToString (nsqStr (params.jget "fact_id")) == "" ||
        (([] : List String).contains (jsToString (nsqStr (params.jget "fact_id"))))) = true) := by
      simp [hne]
    rw [if_neg hcond]
    simp [countFact, List.countP_cons, List.countP_nil, List.countP_append]

/-! ## Lemmas characterising the `POST` gates -/

/-- Missing or empty shared secret: 500 before anything else. -/
theorem POST_secret_missing (env : Env) (now : String) (appendOk : Bool)
    (rawBody providedSig : String) (h : envFalsy env.webhookSecret = true) :
    POST env now appendOk rawBody providedSig =
      ⟨500, jobj [("error", .str "Missing OPENAI_WEBHOOK_SECRET")], []⟩ := by
  unfold POST
  rw [if_pos h]

/-- Failing signature: 401. -/
theorem POST_bad_sig (env : Env) (now : String) (appendOk : Bool)
    (rawBody providedSig : String) (h1 : envFalsy env.webhookSecret = false)
    (h2 : verifyHmacSha256 (utf8Bytes rawBody) (utf8Bytes (env.webhookSecret.getD ""))
      (utf8Bytes providedSig) = false) :
    POST env now appendOk rawBody providedSig =
      ⟨401, jobj [("error", .str "Invalid signature")], []⟩ := by
  simp [POST, h1, h2]

/-- Valid signature but unparsable body: 400 Invalid JSON. -/
theorem POST_invalid_json (env : Env) (now : String) (appendOk : Bool)
    (rawBody providedSig : String) (h1 : envFalsy env.webhookSecret = false)
    (h2 : verifyHmacSha256 (utf8Bytes rawBody) (utf8Bytes (env.webhookSecret.getD ""))
      (utf8Bytes providedSig) = true)
    (h3 : parsedBody rawBody = .error ()) :
    POST env now appendOk rawBody providedSig =
      ⟨400, jobj [("error", .str "Invalid JSON")], []⟩ := by
  simp [POST, h1, h2, h3]

/-- Body parsing to a falsy event value: 400 Empty event. -/
theorem POST_empty_event (env : Env) (now : String) (appendOk : Bool)
    (rawBody providedSig : String) (evt : JsonValue)
    (h1 : envFalsy env.webhookSecret = false)
    (h2 : verifyHmacSha256 (utf8Bytes rawBody) (utf8Bytes (env.webhookSecret.getD ""))
      (utf8Bytes providedSig) = true)
    (h3 : parsedBody rawBody = .ok evt) (h4 : evt.truthy = false) :
    POST env now appendOk rawBody providedSig =
      ⟨400, jobj [("error", .str "Empty event")], []⟩ := by
  simp [POST, h1, h2, h3, h4]

/-- Truthy event without "completed" in its type: 200, ignored. -/
theorem POST_ignored_type (env : Env) (now : String) (appendOk : Bool)
    (rawBody providedSig : String) (evt : JsonValue)
    (h1 : envFalsy env.webhookSecret = false)
    (h2 : verifyHmacSha256 (utf8Bytes rawBody) (utf8Bytes (env.webhookSecret.getD ""))
      (utf8Bytes providedSig) = true)
    (h3 : parsedBody rawBody = .ok evt) (h4 : evt.truthy = true)
    (h5 : testCompleted (eventTypeOf evt) = false) :
    POST env now appendOk rawBody providedSig =
      ⟨200, jobj [("ok", .bool true), ("ignored", .bool true)], []⟩ := by
  simp [POST, h1, h2, h3, h4, h5]

/-- A completion event reaches the identity filter and append tail. -/
theorem POST_completed (env : Env) (now : String) (appendOk : Bool)
    (rawBody providedSig : String) (evt : JsonValue)
    (h1 : envFalsy env.webhookSecret = false)
    (h2 : verifyHmacSha256 (utf8Bytes rawBody) (utf8Bytes (env.webhookSecret.getD ""))
      (utf8Bytes providedSig) = true)
    (h3 : parsedBody rawBody = .ok evt) (h4 : evt.truthy = true)
    (h5 : testCompleted (eventTypeOf evt) = true) :
    POST env now appendOk rawBody providedSig = filterAndAppend env now appendOk evt := by
  simp [POST, h1, h2, h3, h4, h5]

/-- With an id filter configured, a falsy or differing agent id is
ignored with reason "agent_id mismatch". -/
theorem filterAndAppend_id_mismatch (env : Env) (now : String) (appendOk : Bool)
    (evt : JsonValue) (ht : targetOf env.targetAgentId ≠ "")
    (hm : (agentIdOf evt).truthy = false ∨
      (agentIdOf evt).strictEqStr (targetOf env.targetAgentId) = false) :
    filterAndAppend env now appendOk evt =
      ⟨200, jobj [("ok", .bool true), ("ignored", .bool true),
        ("reason", .str "agent_id mismatch")], []⟩ := by
  have ht' : (targetOf env.targetAgentId != "") = true := by simp [ht]
  have hc : (!(agentIdOf evt).truthy ||
      !((agentIdOf evt).strictEqStr (targetOf env.targetAgentId))) = true := by
    rcases hm with h | h <;> simp [h]
  simp only [filterAndAppend, ht', if_true, hc]

/-- With an id filter configured and a matching truthy agent id, the
event is accepted and appended; the name filter is not consulted. -/
theorem filterAndAppend_id_match (env : Env) (now : String) (appendOk : Bool)
    (evt : JsonValue) (ht : targetOf env.targetAgentId ≠ "")
    (hid : (agentIdOf evt).truthy = true)
    (heq : (agentIdOf evt).strictEqStr (targetOf env.targetAgentId) = true) :
    filterAndAppend env now appendOk evt =
      acceptEvent now appendOk evt (agentIdOf evt) (agentNameOf evt) := by
  have ht' : (targetOf env.targetAgentId != "") = true := by simp [ht]
  simp only [filterAndAppend, ht', if_true, hid, heq, Bool.not_true, Bool.or_self,
    Bool.false_eq_true, if_false]

/-- With no id filter but a name filter configured, a falsy or differing
agent name is ignored with reason "agent_name mismatch". -/
theorem filterAndAppend_name_mismatch (env : Env) (now : String) (appendOk : Bool)
    (evt : JsonValue) (ht0 : targetOf env.targetAgentId = "")
    (ht : targetOf env.targetAgentName ≠ "")
    (hm : (agentNameOf evt).truthy = false ∨
      (agentNameOf evt).strictEqStr (targetOf env.targetAgentName) = false) :
    filterAndAppend env now appendOk evt =
      ⟨200, jobj [("ok", .bool true), ("ignored", .bool true),
        ("reason", .str "agent_name mismatch")], []⟩ := by
  have ht' : (targetOf env.targetAgentName != "") = true := by simp [ht]
  have hc : (!(agentNameOf evt).truthy ||
      !((agentNameOf evt).strictEqStr (targetOf env.targetAgentName))) = true := by
    rcases hm with h | h <;> simp [h]
  simp only [filterAndAppend, ht0, ht', if_true, hc, bne_self_eq_false,
    Bool.false_eq_true, if_false]

/-- With no id filter but a matching truthy agent name, the event is
accepted and appended. -/
theorem filterAndAppend_name_match (env : Env) (now : String) (appendOk : Bool)
    (evt : JsonValue) (ht0 : targetOf env.targetAgentId = "")
    (ht : targetOf env.targetAgentName ≠ "")
    (hname : (agentNameOf evt).truthy = true)
    (heq : (agentNameOf evt).strictEqStr (targetOf env.targetAgentName) = true) :
    filterAndAppend env now appendOk evt =
      acceptEvent now appendOk evt (agentIdOf evt) (agentNameOf evt) := by
  have ht' : (targetOf env.targetAgentName != "") = true := by simp [ht]
  simp only [filterAndAppend, ht0, ht', if_true, hname, heq, Bool.not_true,
    Bool.or_self, bne_self_eq_false, Bool.false_eq_true, if_false]

/-- With neither filter configured, every completion event is accepted
unconditionally. -/
theorem filterAndAppend_no_filter (env : Env) (now : String) (appendOk : Bool)
    (evt : JsonValue) (ht0 : targetOf env.targetAgentId = "")
    (hn0 : targetOf env.targetAgentName = "") :
    filterAndAppend env now appendOk evt =
      acceptEvent now appendOk evt (agentIdOf evt) (agentNameOf evt) := by
  simp only [filterAndAppend, ht0, hn0, bne_self_eq_false, Bool.false_eq_true, if_false]

/-- C2: for every POST request the gates short-circuit in fixed order —
missing shared-secret configuration gives 500 before any signature
check; a non-verifying signature gives 401 `{error:"Invalid
signature"}`; a non-empty body that is not valid JSON gives 400
`{error:"Invalid JSON"}`; an empty body or one parsing to null gives
400 `{error:"Empty event"}`; a truthy event whose type (from `type`
then `event`) does not case-insensitively contain "completed" gives 200
`{ok:true, ignored:true}`; and the storage append is reached only when
every one of these gates has passed. -/
theorem POST_gate_order (env : Env) (now : String) (appendOk : Bool)
    (rawBody providedSig : String) :
    (envFalsy env.webhookSecret = true →
      POST env now appendOk rawBody providedSig =
        ⟨500, jobj [("error", .str "Missing OPENAI_WEBHOOK_SECRET")], []⟩) ∧
    (envFalsy env.webhookSecret = false →
      verifyHmacSha256 (utf8Bytes rawBody) (utf8Bytes (env.webhookSecret.getD ""))
        (utf8Bytes providedSig) = false →
      POST env now appendOk rawBody providedSig =
        ⟨401, jobj [("error", .str "Invalid signature")], []⟩) ∧
    (envFalsy env.webhookSecret = false →
      verifyHmacSha256 (utf8Bytes rawBody) (utf8Bytes (env.webhookSecret.getD ""))
        (utf8Bytes providedSig) = true →
      rawBody ≠ "" → JSON_parse rawBody = .error () →
      POST env now appendOk rawBody providedSig =
        ⟨400, jobj [("error", .str "Invalid JSON")], []⟩) ∧
    (envFalsy env.webhookSecret = false →
      verifyHmacSha256 (utf8Bytes rawBody) (utf8Bytes (env.webhookSecret.getD ""))
        (utf8Bytes providedSig) = true →
      parsedBody rawBody = .ok .null →
      POST env now appendOk rawBody providedSig =
        ⟨400, jobj [("error", .str "Empty event")], []⟩) ∧
    (∀ evt, envFalsy env.webhookSecret = false →
      verifyHmacSha256 (utf8Bytes rawBody) (utf8Bytes (env.webhookSecret.getD ""))
        (utf8Bytes providedSig) = true →
      parsedBody rawBody = .ok evt → evt.truthy = true →
      testCompleted (eventTypeOf evt) = false →
      POST env now appendOk rawBody providedSig =
        ⟨200, jobj [("ok", .bool true), ("ignored", .bool true)], []⟩) ∧
    ((POST env now appendOk rawBody providedSig).rows ≠ [] →
      envFalsy env.webhookSecret = false ∧
      verifyHmacSha256 (utf8Bytes rawBody) (utf8Bytes (env.webhookSecret.getD ""))
        (utf8Bytes providedSig) = true ∧
      ∃ evt, parsedBody rawBody = .ok evt ∧ evt.truthy = true ∧
        testCompleted (eventTypeOf evt) = true) := by
  refine ⟨POST_secret_missing env now appendOk rawBody providedSig,
    POST_bad_sig env now appendOk rawBody providedSig, ?_, ?_, ?_, ?_⟩
  · intro h1 h2 hne hjs
    exact POST_invalid_json env now appendOk rawBody providedSig h1 h2
      (by simp [parsedBody, hne, hjs])
  · intro h1 h2 hp
    exact POST_empty_event env now appendOk rawBody providedSig .null h1 h2 hp rfl
  · intro evt h1 h2 hp h4 h5
    exact POST_ignored_type env now appendOk rawBody providedSig evt h1 h2 hp h4 h5
  · intro hne
    by_cases h1 : envFalsy env.webhookSecret = true
    · rw [POST_secret_missing env now appendOk rawBody providedSig h1] at hne
      exact absurd rfl hne
    · have h1' : envFalsy env.webhookSecret = false := by
        revert h1; cases envFalsy env.webhookSecret <;> simp
      refine ⟨h1', ?_⟩
      by_cases h2 : verifyHmacSha256 (utf8Bytes rawBody)
          (utf8Bytes (env.webhookSecret.getD "")) (utf8Bytes providedSig) = true
      · refine ⟨h2, ?_⟩
        rcases hp : parsedBody rawBody with e | evt
        · cases e
          rw [POST_invalid_json env now appendOk rawBody providedSig h1' h2 hp] at hne
          exact absurd rfl hne
        · by_cases h4 : evt.truthy = true
          · by_cases h5 : testCompleted (eventTypeOf evt) = true
            · exact ⟨evt, rfl, h4, h5⟩
            · have h5' : testCompleted (eventTypeOf evt) = false := by
                revert h5; cases testCompleted (eventTypeOf evt) <;> simp
              rw [POST_ignored_type env now appendOk rawBody providedSig evt h1' h2 hp h4 h5'] at hne
              exact absurd rfl hne
          · have h4' : evt.truthy = false := by
              revert h4; cases evt.truthy <;> simp
            rw [POST_empty_event env now appendOk rawBody providedSig evt h1' h2 hp h4'] at hne
            exact absurd rfl hne
      · have h2' : verifyHmacSha256 (utf8Bytes rawBody)
            (utf8Bytes (env.webhookSecret.getD "")) (utf8Bytes providedSig) = false := by
          revert h2; cases verifyHmacSha256 (utf8Bytes rawBody)
            (utf8Bytes (env.webhookSecret.getD "")) (utf8Bytes providedSig) <;> simp
        rw [POST_bad_sig env now appendOk rawBody providedSig h1' h2'] at hne
        exact absurd rfl hne

/-! ## C5: exactly one append per accepted event -/

/-- The identity filter as a predicate (specification side): target id
if configured, else target name if configured, else pass. -/
def identityFilterPass (env : Env) (evt : JsonValue) : Bool :=
  if targetOf env.targetAgentId != "" then
    (agentIdOf evt).truthy && (agentIdOf evt).strictEqStr (targetOf env.targetAgentId)
  else if targetOf env.targetAgentName != "" then
    (agentNameOf evt).truthy && (agentNameOf evt).strictEqStr (targetOf env.targetAgentName)
  else true

/-- All gates of the specification, as one predicate: configuration,
signature, JSON validity and non-emptiness, completion event type, and
the identity filter. -/
def gatesPass (env : Env) (rawBody providedSig : String) : Bool :=
  !envFalsy env.webhookSecret &&
  verifyHmacSha256 (utf8Bytes rawBody) (utf8Bytes (env.webhookSecret.getD ""))
    (utf8Bytes providedSig) &&
  (match parsedBody rawBody with
   | .error _ => false
   | .ok evt => evt.truthy && testCompleted (eventTypeOf evt) && identityFilterPass env evt)

/-- The accept tail always makes exactly one append call and returns an
object body. -/
theorem acceptEvent_summary (now : String) (appendOk : Bool) (evt a b : JsonValue) :
    (acceptEvent now appendOk evt a b).rows.length = 1 ∧
    ∃ fs, (acceptEvent now appendOk evt a b).body = .obj fs := by
  unfold acceptEvent
  cases appendOk <;> exact ⟨rfl, _, rfl⟩

/-- The filter-and-append tail appends exactly when the identity filter
passes, and always returns an object body. -/
theorem filterAndAppend_summary (env : Env) (now : String) (appendOk : Bool) (evt : JsonValue) :
    (filterAndAppend env now appendOk evt).rows.length ≤ 1 ∧
    ((filterAndAppend env now appendOk evt).rows.length = 1 ↔
      identityFilterPass env evt = true) ∧
    ∃ fs, (filterAndAppend env now appendOk evt).body = .obj fs := by
  unfold filterAndAppend identityFilterPass
  by_cases t1 : (targetOf env.targetAgentId != "") = true
  · rw [if_pos t1, if_pos t1]
    by_cases m1 : (!(agentIdOf evt).truthy ||
        !((agentIdOf evt).strictEqStr (targetOf env.targetAgentId))) = true
    · rw [if_pos m1]
      refine ⟨by simp, ?_, _, rfl⟩
      simp only [List.length_nil]
      constructor
      · intro h; cases h
      · intro h
        rcases Bool.or_eq_true_iff.mp m1 with hh | hh <;>
          simp [Bool.not_eq_true' ] at hh <;> simp [hh] at h
    · rw [if_neg m1]
      obtain ⟨hl, hb⟩ := acceptEvent_summary now appendOk evt (agentIdOf evt) (agentNameOf evt)
      refine ⟨by omega, ?_, hb⟩
      rw [hl]
      simp only [true_iff]
      have m1' : (!(agentIdOf evt).truthy ||
          !((agentIdOf evt).strictEqStr (targetOf env.targetAgentId))) = false := by
        cases hx : (!(agentIdOf evt).truthy ||
          !((agentIdOf evt).strictEqStr (targetOf env.targetAgentId)))
        · rfl
        · exact absurd hx m1
      rcases Bool.or_eq_false_iff.mp m1' with ⟨ha, hc⟩
      have ha' : (agentIdOf evt).truthy = true := by
        revert ha; cases (agentIdOf evt).truthy <;> simp
      have hc' : (agentIdOf evt).strictEqStr (targetOf env.targetAgentId) = true := by
        revert hc; cases (agentIdOf evt).strictEqStr (targetOf env.targetAgentId) <;> simp
      simp [ha', hc']
  · rw [if_neg t1, if_neg t1]
    by_cases t2 : (targetOf env.targetAgentName != "") = true
    · rw [if_pos t2, if_pos t2]
      by_cases m2 : (!(agentNameOf evt).truthy ||
          !((agentNameOf evt).strictEqStr (targetOf env.targetAgentName))) = true
      · rw [if_pos m2]
        refine ⟨by simp, ?_, _, rfl⟩
        simp only [List.length_nil]
        constructor
        · intro h; cases h
        · intro h
          rcases Bool.or_eq_true_iff.mp m2 with hh | hh <;>
            simp [Bool.not_eq_true'] at hh <;> simp [hh] at h
      · rw [if_neg m2]
        obtain ⟨hl, hb⟩ := acceptEvent_summary now appendOk evt (agentIdOf evt) (agentNameOf evt)
        refine ⟨by omega, ?_, hb⟩
        rw [hl]
        simp only [true_iff]
        have m2' : (!(agentNameOf evt).truthy ||
            !((agentNameOf evt).strictEqStr (targetOf env.targetAgentName))) = false := by
          cases hx : (!(agentNameOf evt).truthy ||
            !((agentNameOf evt).strictEqStr (targetOf env.targetAgentName)))
          · rfl
          · exact absurd hx m2
        rcases Bool.or_eq_false_iff.mp m2' with ⟨ha, hc⟩
        have ha' : (agentNameOf evt).truthy = true := by
          revert ha; cases (agentNameOf evt).truthy <;> simp
        have hc' : (agentNameOf evt).strictEqStr (targetOf env.targetAgentName) = true := by
          revert hc; cases (agentNameOf evt).strictEqStr (targetOf env.targetAgentName) <;> simp
        simp [ha', hc']
    · rw [if_neg t2, if_neg t2]
      obtain ⟨hl, hb⟩ := acceptEvent_summary now appendOk evt (agentIdOf evt) (agentNameOf evt)
      exact ⟨by omega, by rw [hl]; simp, hb⟩

/-- C5: every `POST` invocation makes at most one storage append call;
it makes exactly one call precisely when all gates pass (configuration,
signature, JSON validity and non-emptiness, completion type, identity
filter); every rejected or ignored path makes zero calls; and every
response path returns a structured JSON object body. -/
theorem POST_append_exactly_once (env : Env) (now : String) (appendOk : Bool)
    (rawBody providedSig : String) :
    (POST env now appendOk rawBody providedSig).rows.length ≤ 1 ∧
    ((POST env now appendOk rawBody providedSig).rows.length = 1 ↔
      gatesPass env rawBody providedSig = true) ∧
    ∃ fs, (POST env now appendOk rawBody providedSig).body = .obj fs := by
  by_cases h1 : envFalsy env.webhookSecret = true
  · rw [POST_secret_missing env now appendOk rawBody providedSig h1]
    exact ⟨by simp, by simp [gatesPass, h1], _, rfl⟩
  · have h1' : envFalsy env.webhookSecret = false := by
      revert h1; cases envFalsy env.webhookSecret <;> simp
    by_cases h2 : verifyHmacSha256 (utf8Bytes rawBody)
        (utf8Bytes (env.webhookSecret.getD "")) (utf8Bytes providedSig) = true
    · rcases hp : parsedBody rawBody with e | evt
      · cases e
        rw [POST_invalid_json env now appendOk rawBody providedSig h1' h2 hp]
        exact ⟨by simp, by simp [gatesPass, h1', h2, hp], _, rfl⟩
      · by_cases h4 : evt.truthy = true
        · by_cases h5 : testCompleted (eventTypeOf evt) = true
          · rw [POST_completed env now appendOk rawBody providedSig evt h1' h2 hp h4 h5]
            obtain ⟨hA, hB, hC⟩ := filterAndAppend_summary env now appendOk evt
            refine ⟨hA, ?_, hC⟩
            rw [hB]
            simp [gatesPass, h1', h2, hp, h4, h5]
          · have h5' : testCompleted (eventTypeOf evt) = false := by
              revert h5; cases testCompleted (eventTypeOf evt) <;> simp
            rw [POST_ignored_type env now appendOk rawBody providedSig evt h1' h2 hp h4 h5']
            exact ⟨by simp, by simp [gatesPass, h1', h2, hp, h5'], _, rfl⟩
        · have h4' : evt.truthy = false := by
            revert h4; cases evt.truthy <;> simp
          rw [POST_empty_event env now appendOk rawBody providedSig evt h1' h2 hp h4']
          exact ⟨by simp, by simp [gatesPass, h1', h2, hp, h4'], _, rfl⟩
    · have h2' : verifyHmacSha256 (utf8Bytes rawBody)
          (utf8Bytes (env.webhookSecret.getD "")) (utf8Bytes providedSig) = false := by
        revert h2; cases verifyHmacSha256 (utf8Bytes rawBody)
          (utf8Bytes (env.webhookSecret.getD "")) (utf8Bytes providedSig) <;> simp
      rw [POST_bad_sig env now appendOk rawBody providedSig h1' h2']
      exact ⟨by simp, by simp [gatesPass, h1', h2'], _, rfl⟩

/-! ## C6: identity filter precedence -/

/-- C6: on a completion event, if a target agent id is configured then a
falsy or differing resolved id is ignored with reason "agent_id
mismatch" and the name filter is never consulted (no response ever
carries reason "agent_name mismatch"); with no id filter but a name
filter, the same holds for the resolved name with reason "agent_name
mismatch"; with neither filter configured the event is accepted
unconditionally and appended. -/
theorem POST_identity_filter (env : Env) (now : String) (appendOk : Bool)
    (rawBody providedSig : String) (evt : JsonValue)
    (h1 : envFalsy env.webhookSecret = false)
    (h2 : verifyHmacSha256 (utf8Bytes rawBody) (utf8Bytes (env.webhookSecret.getD ""))
      (utf8Bytes providedSig) = true)
    (h3 : parsedBody rawBody = .ok evt) (h4 : evt.truthy = true)
    (h5 : testCompleted (eventTypeOf evt) = true) :
    (targetOf env.targetAgentId ≠ "" →
      ((agentIdOf evt).truthy = false ∨
        (agentIdOf evt).strictEqStr (targetOf env.targetAgentId) = false) →
      POST env now appendOk rawBody providedSig =
        ⟨200, jobj [("ok", .bool true), ("ignored", .bool true),
          ("reason", .str "agent_id mismatch")], []⟩) ∧
    (targetOf env.targetAgentId ≠ "" →
      JsonValue.jget (POST env now appendOk rawBody providedSig).body "reason" ≠
        some (.str "agent_name mismatch")) ∧
    (targetOf env.targetAgentId = "" → targetOf env.targetAgentName ≠ "" →
      ((agentNameOf evt).truthy = false ∨
        (agentNameOf evt).strictEqStr (targetOf env.targetAgentName) = false) →
      POST env now appendOk rawBody providedSig =
        ⟨200, jobj [("ok", .bool true), ("ignored", .bool true),
          ("reason", .str "agent_name mismatch")], []⟩) ∧
    (targetOf env.targetAgentId = "" → targetOf env.targetAgentName = "" →
      POST env now appendOk rawBody providedSig =
        acceptEvent now appendOk evt (agentIdOf evt) (agentNameOf evt) ∧
      (POST env now appendOk rawBody providedSig).rows.length = 1) := by
  have hpc := POST_completed env now appendOk rawBody providedSig evt h1 h2 h3 h4 h5
  refine ⟨?_, ?_, ?_, ?_⟩
  · intro ht hm
    rw [hpc]
    exact filterAndAppend_id_mismatch env now appendOk evt ht hm
  · intro ht
    rw [hpc]
    by_cases m1 : ((agentIdOf evt).truthy = false ∨
        (agentIdOf evt).strictEqStr (targetOf env.targetAgentId) = false)
    · rw [filterAndAppend_id_mismatch env now appendOk evt ht m1]
      decide
    · obtain ⟨hA, hB⟩ := not_or.mp m1
      have hid : (agentIdOf evt).truthy = true := by
        revert hA; cases (agentIdOf evt).truthy <;> simp
      have heq : (agentIdOf evt).strictEqStr (targetOf env.targetAgentId) = true := by
        revert hB; cases (agentIdOf evt).strictEqStr (targetOf env.targetAgentId) <;> simp
      rw [filterAndAppend_id_match env now appendOk evt ht hid heq]
      unfold acceptEvent
      cases appendOk <;>
        simp [jobj, JsonValue.jget, JsonValue.getFieldLast, JsonFields.ofList]
  · intro ht0 ht hm
    rw [hpc]
    exact filterAndAppend_name_mismatch env now appendOk evt ht0 ht hm
  · intro ht0 hn0
    rw [hpc, filterAndAppend_no_filter env now appendOk evt ht0 hn0]
    exact ⟨rfl, (acceptEvent_summary now appendOk evt (agentIdOf evt) (agentNameOf evt)).1⟩

/-! ## C8: replay appends twice, no dedup state -/

/-- C8: the handler keeps no state between invocations — a pair of
byte-identical requests is processed as two independent `POST` calls
with identical outcomes, and when the request is accepted (one append)
the replayed pair appends two rows in total. -/
theorem POST_replay_appends_twice (env : Env) (now : String) (appendOk : Bool)
    (rawBody providedSig : String) :
    processRequests env now appendOk [(rawBody, providedSig), (rawBody, providedSig)] =
      [POST env now appendOk rawBody providedSig,
       POST env now appendOk rawBody providedSig] ∧
    ((POST env now appendOk rawBody providedSig).rows.length = 1 →
      ((processRequests env now appendOk
          [(rawBody, providedSig), (rawBody, providedSig)]).map
        (fun r => r.rows.length)).sum = 2) := by
  refine ⟨rfl, ?_⟩
  intro h
  simp [processRequests, h]

/-! ## Concrete witnesses -/

/-- A signed event that is not a completion event. -/
def bodyStarted : String := "\x7b\"type\":\"run.started\"\x7d"

/-- The environment with id filter "a2" configured. -/
def envTargetA2 : Env := ⟨some "whsec", some "a2", none⟩

/-- A signed completion event for agent a1. -/
def bodyAgentA1 : String :=
  "\x7b\"type\":\"run.completed\",\"agent\":\x7b\"id\":\"a1\"\x7d\x7d"

/-- The parsed form of `bodyAgentA1`. -/
def evtAgentA1 : JsonValue :=
  jobj [("type", JsonValue.str "run.completed"),
        ("agent", jobj [("id", JsonValue.str "a1")])]

/-- A signed completion event used for the replay witness. -/
def bodyRunC8 : String := "\x7b\"type\":\"wf.completed\",\"run_id\":\"r1\"\x7d"

/-- A wrong signature fails verification against the configured secret. -/
theorem gateSigWrong :
    verifyHmacSha256 (utf8Bytes "x") (utf8Bytes (envNoFilter.webhookSecret.getD ""))
      (utf8Bytes "wrong") = false := by
  decide

/-- The correct signature of the non-JSON body verifies. -/
theorem gateSigNotJson :
    verifyHmacSha256 (utf8Bytes "not json") (utf8Bytes (envNoFilter.webhookSecret.getD ""))
      (utf8Bytes (sigFor "whsec" "not json")) = true := by
  decide

/-- The correct signature of the empty body verifies. -/
theorem gateSigEmpty :
    verifyHmacSha256 (utf8Bytes "") (utf8Bytes (envNoFilter.webhookSecret.getD ""))
      (utf8Bytes (sigFor "whsec" "")) = true := by
  decide

/-- The correct signature of the non-completion event body verifies. -/
theorem gateSigStarted :
    verifyHmacSha256 (utf8Bytes bodyStarted) (utf8Bytes (envNoFilter.webhookSecret.getD ""))
      (utf8Bytes (sigFor "whsec" bodyStarted)) = true := by
  decide

/-- The correctly signed `result:false` completion event appends a row. -/
theorem gateRowsFalseResult :
    (POST envNoFilter "T" true bodyFalseResult (sigFor "whsec" bodyFalseResult)).rows ≠ [] := by
  decide

/-- Concrete instances of every gate of the gate-order theorem. -/
theorem POST_gate_order_witness :
    POST ⟨none, none, none⟩ "T" true "x" "y" =
      ⟨500, jobj [("error", .str "Missing OPENAI_WEBHOOK_SECRET")], []⟩ ∧
    POST envNoFilter "T" true "x" "wrong" =
      ⟨401, jobj [("error", .str "Invalid signature")], []⟩ ∧
    POST envNoFilter "T" true "not json" (sigFor "whsec" "not json") =
      ⟨400, jobj [("error", .str "Invalid JSON")], []⟩ ∧
    POST envNoFilter "T" true "" (sigFor "whsec" "") =
      ⟨400, jobj [("error", .str "Empty event")], []⟩ ∧
    POST envNoFilter "T" true bodyStarted (sigFor "whsec" bodyStarted) =
      ⟨200, jobj [("ok", .bool true), ("ignored", .bool true)], []⟩ ∧
    (envFalsy envNoFilter.webhookSecret = false ∧
     verifyHmacSha256 (utf8Bytes bodyFalseResult) (utf8Bytes (envNoFilter.webhookSecret.getD ""))
       (utf8Bytes (sigFor "whsec" bodyFalseResult)) = true ∧
     ∃ evt, parsedBody bodyFalseResult = .ok evt ∧ evt.truthy = true ∧
       testCompleted (eventTypeOf evt) = true) := by
  refine ⟨(POST_gate_order ⟨none, none, none⟩ "T" true "x" "y").1 rfl,
    (POST_gate_order envNoFilter "T" true "x" "wrong").2.1 (by decide) gateSigWrong,
    (POST_gate_order envNoFilter "T" true "not json" (sigFor "whsec" "not json")).2.2.1
      (by decide) gateSigNotJson (by decide) (by decide),
    (POST_gate_order envNoFilter "T" true "" (sigFor "whsec" "")).2.2.2.1
      (by decide) gateSigEmpty (by decide),
    (POST_gate_order envNoFilter "T" true bodyStarted (sigFor "whsec" bodyStarted)).2.2.2.2.1
      (jobj [("type", JsonValue.str "run.started")])
      (by decide) gateSigStarted (by decide) (by decide) (by decide),
    (POST_gate_order envNoFilter "T" true bodyFalseResult
      (sigFor "whsec" bodyFalseResult)).2.2.2.2.2 gateRowsFalseResult⟩

/-- Concrete instances of the identity filter theorem: agent a1 against
target id a2 is ignored with reason, and accepted with no filter. -/
theorem POST_identity_filter_witness :
    POST envTargetA2 "T" true bodyAgentA1 (sigFor "whsec" bodyAgentA1) =
      ⟨200, jobj [("ok", .bool true), ("ignored", .bool true),
        ("reason", .str "agent_id mismatch")], []⟩ ∧
    (POST envNoFilter "T" true bodyAgentA1 (sigFor "whsec" bodyAgentA1)).rows.length = 1 := by
  constructor
  · exact (POST_identity_filter envTargetA2 "T" true bodyAgentA1 (sigFor "whsec" bodyAgentA1)
      evtAgentA1 (by decide) (by decide) (by decide) (by decide) (by decide)).1
      (by decide) (by decide)
  · exact ((POST_identity_filter envNoFilter "T" true bodyAgentA1 (sigFor "whsec" bodyAgentA1)
      evtAgentA1 (by decide) (by decide) (by decide) (by decide) (by decide)).2.2.2 rfl rfl).2

/-- Concrete instance of the replay theorem: the same accepted request
sent twice appends two rows. -/
theorem POST_replay_witness :
    ((processRequests envNoFilter "T" true
        [(bodyRunC8, sigFor "whsec" bodyRunC8), (bodyRunC8, sigFor "whsec" bodyRunC8)]).map
      (fun r => r.rows.length)).sum = 2 :=
  (POST_replay_appends_twice envNoFilter "T" true bodyRunC8 (sigFor "whsec" bodyRunC8)).2
    (by decide)

/-- A `record_fact` invocation payload with messy whitespace. -/
def paramsFactW : JsonValue :=
  jobj [("fact_id", JsonValue.str "f1"), ("fact_text", JsonValue.str "  a \t b ")]

/-- Concrete instances of the dedup theorem: first invocation forwards
the normalised fact, the repeat is skipped, a thread change re-enables
it, and a clear-free pair emits at most once. -/
theorem record_fact_dedup_witness :
    onClientTool ⟨[]⟩ "record_fact" paramsFactW =
      (⟨["f1"]⟩, [.widgetAction ⟨"f1", "a b"⟩], ⟨true⟩) ∧
    onClientTool ⟨["f1"]⟩ "record_fact" paramsFactW = (⟨["f1"]⟩, [], ⟨true⟩) ∧
    countFact "f1"
      (runPanel ⟨["f1"]⟩ [.threadChange, .clientTool "record_fact" paramsFactW]).2 = 1 ∧
    countFact "f1"
      (runPanel ⟨[]⟩ [.clientTool "record_fact" paramsFactW,
        .clientTool "record_fact" paramsFactW]).2 ≤ 1 := by
  refine ⟨?_, ?_, ?_, ?_⟩
  · exact (record_fact_dedup ⟨[]⟩ paramsFactW [] "f1").2.1 (by decide) (by decide)
  · exact (record_fact_dedup ⟨["f1"]⟩ paramsFactW [] "f1").1 (Or.inr (by decide))
  · exact (record_fact_dedup ⟨["f1"]⟩ paramsFactW [] "f1").2.2.2.2 (by decide)
  · exact (record_fact_dedup ⟨[]⟩ paramsFactW
      [.clientTool "record_fact" paramsFactW, .clientTool "record_fact" paramsFactW]
      "f1").2.2.2.1 (by decide)
